import Mathlib

set_option maxHeartbeats 1000000

/-!
Shallow embedding of the FireSim co-simulation orchestrator
(`sim/src/main/cc/firesim/firesim_top.cc`).

The orchestrator owns ordered lists of bridge drivers and FPGA models over
an abstract world state `σ`.  Every externally observable call the
orchestrator makes (init/tick/profile/finish on components, platform
primitives, report lines) is recorded as an `Event`, so theorems can speak
about the order and multiplicity of calls.  C++ `std::string` is modelled
as `List Char`, machine integers as `Int`/`Nat` (the claims never exercise
overflow), and the C++ `double` arithmetic of the metrics report as `ℚ`
(an exact-real idealization of IEEE doubles; the threshold comparison the
claims are about is structurally identical).  The `while` loops of
`firesim_top_t::run` are given explicit fuel and return `none` when the
fuel is exhausted, so every theorem about a completed run is conditional
on the loop having exited.
-/

/-- Observable events of one orchestrator run, in the order the host
performs them: component lifecycle calls, platform primitives, and the
stderr report lines of `firesim_top_t::run`. -/
inductive Event where
  | modelInit (i : Nat)
  | bridgeInit (i : Nat)
  | zeroDram
  | commencing
  | targetReset (cycles : Nat)
  | profileModel (i : Nat)
  | stepAdvance
  | bridgeTick (i : Nat)
  | newline
  | failedCode (code : Int) (cycles : Nat)
  | failedTimeout (cycles : Nat)
  | passed (cycles : Nat)
  | speedMHz
  | speedKHz
  | fmrLine
  | expectCall (code : Int)
  | modelFinish (i : Nat)
  | bridgeFinish (i : Nat)
deriving DecidableEq

/-- A registered bridge driver: the capability set
{init, tick, terminate, exit_code, finish} over the abstract world state.
`terminate` and `exit_code` are side-effect-free queries (the source calls
`e->exit_code()` twice in a row and relies on it returning the same
value). -/
structure bridge_driver_t (σ : Type) where
  init : σ → σ
  tick : σ → σ
  terminate : σ → Bool
  exit_code : σ → Int
  finish : σ → σ

/-- An attached FPGA model: the capability set {init, profile, finish}. -/
structure FpgaModel (σ : Type) where
  init : σ → σ
  profile : σ → σ
  finish : σ → σ

/-- Modelled from the spec: a scheduled task of the periodic task registry
(`register_task` / `run_scheduled_tasks` live in the simulation-driver base
class, which is not part of this repository slice).  A task is a callback
plus a countdown in host-step units; the callback returns the delay until
its next invocation, or the disable sentinel `-1` (the spec's "disabled"
sentinel) to remove itself. -/
structure host_task (σ : Type) where
  callback : σ → σ × List Event × Int
  countdown : Nat

/-- The simulation-platform capability contract consumed by the
orchestrator (external collaborators per the spec: step/done/reset
primitives, cycle counters, wall-clock reader, DRAM zeroing, and the
`max_cycles` timeout predicate `has_timed_out`). -/
structure Platform (σ : Type) where
  done : σ → Bool
  has_timed_out : σ → Bool
  step : σ → σ
  target_reset : Nat → σ → σ
  zero_out_dram : σ → σ
  actual_tcycle : σ → Nat
  hcycle : σ → Nat
  timestamp : σ → ℚ

/-- The orchestrator (`class firesim_top_t`): startup configuration plus
the ordered driver/model/task registries. -/
structure firesim_top_t (σ : Type) where
  max_cycles : Int
  profile_interval : Int
  do_zero_out_dram : Bool
  fpga_models : List (FpgaModel σ)
  bridges : List (bridge_driver_t σ)
  tasks : List (host_task σ)

/-- C `isspace` character class, as skipped by `atoi`. -/
def c_isspace (c : Char) : Bool :=
  c = ' ' || c = '\t' || c = '\n' || c = '\x0b' || c = '\x0c' || c = '\r'

/-- Decimal-digit accumulator of `atoi`: consume leading digits, stop at
the first non-digit. -/
def digitsVal : List Char → Nat → Nat
  | c :: cs, acc => if c.isDigit then digitsVal cs (10 * acc + (c.toNat - 48)) else acc
  | [], acc => acc

/-- C `atoi`, as a mathematical integer (the claims never exercise
overflow): skip whitespace, optional sign, leading digits. -/
def atoi (cs : List Char) : Int :=
  match cs.dropWhile c_isspace with
  | '-' :: ds => -(digitsVal ds 0 : Int)
  | '+' :: ds => (digitsVal ds 0 : Int)
  | ds => (digitsVal ds 0 : Int)

/-- The flag prefix `"+max-cycles="` (12 characters). -/
def pMaxCycles : List Char := "+max-cycles=".toList

/-- The flag prefix `"+profile-interval="` (18 characters). -/
def pProfileInterval : List Char := "+profile-interval=".toList

/-- The flag prefix `"+zero-out-dram"`. -/
def pZeroOutDram : List Char := "+zero-out-dram".toList

/-- One iteration of the constructor's argument loop: three independent
prefix tests (`arg.find(p) == 0` is "starts with p"), each overwriting the
corresponding field.  `arg.c_str()+12` / `+18` are the drops past the
prefix. -/
def parse_arg_step {σ : Type} (c : firesim_top_t σ) (arg : List Char) : firesim_top_t σ :=
  let c := if pMaxCycles.isPrefixOf arg then { c with max_cycles := atoi (arg.drop 12) } else c
  let c := if pProfileInterval.isPrefixOf arg then { c with profile_interval := atoi (arg.drop 18) } else c
  if pZeroOutDram.isPrefixOf arg then { c with do_zero_out_dram := true } else c

/-- Runs `profile()` on every attached FPGA model, emitting one event per
model in registration order (the loop body of
`firesim_top_t::profile_models`). -/
def profile_go {σ : Type} : List (FpgaModel σ) → Nat → σ → σ × List Event
  | [], _, s => (s, [])
  | m :: ms, i, s =>
    let s1 := m.profile s
    let r := profile_go ms (i + 1) s1
    (r.1, Event.profileModel i :: r.2)

/-- `firesim_top_t::profile_models`: profile every attached model, then
return `profile_interval` (the source returns it as `uint64_t`; the
scheduler contract is modelled over `Int`, and the registered callback
only exists when `profile_interval != -1`). -/
def firesim_top_t.profile_models {σ : Type} (ms : List (FpgaModel σ)) (profile_interval : Int)
    (s : σ) : σ × List Event × Int :=
  let r := profile_go ms 0 s
  (r.1, r.2, profile_interval)

/-- The built-in task registered by the constructor:
`register_task([this](){ return this->profile_models(); }, 0)` — the
profiling callback with initial interval 0. -/
def profile_task {σ : Type} (ms : List (FpgaModel σ)) (profile_interval : Int) : host_task σ :=
  { callback := fun s => firesim_top_t.profile_models ms profile_interval s
    countdown := 0 }

/-- The `firesim_top_t` constructor: defaults (`max_cycles = -1;
profile_interval = max_cycles;` and the header's `do_zero_out_dram =
false`, the latter modelled from the spec since the header is not in this
repository slice), the argument loop, the externally assembled
registration lists, and the conditional registration of the built-in
profiling task (`if (profile_interval != -1) register_task(..., 0)`). -/
def firesim_top_t.construct (σ : Type) (args : List (List Char))
    (models : List (FpgaModel σ)) (bs : List (bridge_driver_t σ)) : firesim_top_t σ :=
  let c0 : firesim_top_t σ :=
    { max_cycles := -1, profile_interval := -1, do_zero_out_dram := false
      fpga_models := models, bridges := bs, tasks := [] }
  let c1 := args.foldl parse_arg_step c0
  if c1.profile_interval ≠ -1 then
    { c1 with tasks := [profile_task models c1.profile_interval] }
  else c1

/-- `firesim_top_t::simulation_complete`: OR together `terminate()` of
every bridge (`is_complete |= e->terminate()`; every driver is polled,
no short-circuit). -/
def firesim_top_t.simulation_complete {σ : Type} (bs : List (bridge_driver_t σ)) (s : σ) : Bool :=
  bs.foldl (fun is_complete e => is_complete || e.terminate s) false

/-- `firesim_top_t::exit_code`: scan the bridges in registration order and
return the first non-zero `exit_code()`, else 0. -/
def firesim_top_t.exit_code {σ : Type} : List (bridge_driver_t σ) → σ → Int
  | [], _ => 0
  | e :: rest, s => if e.exit_code s ≠ 0 then e.exit_code s else firesim_top_t.exit_code rest s

/-- Modelled from the spec: `run_scheduled_tasks` of the periodic task
registry (not in this repository slice).  Each check visits every task in
order: a task whose countdown has reached zero runs its callback and is
rescheduled with the returned delay (delay `r` means it runs again `r`
checks later, so the stored countdown becomes `(r-1).toNat`), unless the
callback returned the disable sentinel `-1`, which removes it; all other
tasks have their countdown decremented. -/
def run_scheduled_tasks {σ : Type} : List (host_task σ) → σ → List (host_task σ) × σ × List Event
  | [], s => ([], s, [])
  | t :: ts, s =>
    if t.countdown = 0 then
      let c := t.callback s
      let rest := run_scheduled_tasks ts c.1
      if c.2.2 = -1 then (rest.1, rest.2.1, c.2.1 ++ rest.2.2)
      else ({ t with countdown := (c.2.2 - 1).toNat } :: rest.1, rest.2.1, c.2.1 ++ rest.2.2)
    else
      let rest := run_scheduled_tasks ts s
      ({ t with countdown := t.countdown - 1 } :: rest.1, rest.2.1, rest.2.2)

/-- Iterate the scheduler: the task list and world after `n` successive
`run_scheduled_tasks` checks. -/
def sched_iter {σ : Type} : List (host_task σ) → σ → Nat → List (host_task σ) × σ
  | ts, s, 0 => (ts, s)
  | ts, s, n + 1 =>
    let r := run_scheduled_tasks ts s
    sched_iter r.1 r.2.1 n

/-- Calls `init()` on every FPGA model in registration order
(`for (auto &e : fpga_models) e->init();`). -/
def init_models {σ : Type} : List (FpgaModel σ) → Nat → σ → σ × List Event
  | [], _, s => (s, [])
  | m :: ms, i, s =>
    let r := init_models ms (i + 1) (m.init s)
    (r.1, Event.modelInit i :: r.2)

/-- Calls `init()` on every bridge driver in registration order
(`for (auto &e : bridges) e->init();`). -/
def init_bridges {σ : Type} : List (bridge_driver_t σ) → Nat → σ → σ × List Event
  | [], _, s => (s, [])
  | e :: es, i, s =>
    let r := init_bridges es (i + 1) (e.init s)
    (r.1, Event.bridgeInit i :: r.2)

/-- Calls `tick()` on every bridge driver in registration order
(`for (auto &e : bridges) e->tick();`). -/
def tick_bridges {σ : Type} : List (bridge_driver_t σ) → Nat → σ → σ × List Event
  | [], _, s => (s, [])
  | e :: es, i, s =>
    let r := tick_bridges es (i + 1) (e.tick s)
    (r.1, Event.bridgeTick i :: r.2)

/-- Calls `finish()` on every FPGA model in registration order
(`for (auto &e : fpga_models) e->finish();`). -/
def finish_models {σ : Type} : List (FpgaModel σ) → Nat → σ → σ × List Event
  | [], _, s => (s, [])
  | m :: ms, i, s =>
    let r := finish_models ms (i + 1) (m.finish s)
    (r.1, Event.modelFinish i :: r.2)

/-- Calls `finish()` on every bridge driver in registration order
(`for (auto &e : bridges) e->finish();`). -/
def finish_bridges {σ : Type} : List (bridge_driver_t σ) → Nat → σ → σ × List Event
  | [], _, s => (s, [])
  | e :: es, i, s =>
    let r := finish_bridges es (i + 1) (e.finish s)
    (r.1, Event.bridgeFinish i :: r.2)

/-- The inner polling loop of `firesim_top_t::run`:
`while (!done() && !simulation_complete()) { for (auto &e : bridges)
e->tick(); }`, with explicit fuel (`none` = fuel exhausted before the
loop condition became false). -/
def inner_loop {σ : Type} (P : Platform σ) (bs : List (bridge_driver_t σ)) :
    Nat → σ → Option (σ × List Event)
  | 0, _ => none
  | fuel + 1, s =>
    if !(P.done s) && !(firesim_top_t.simulation_complete bs s) then
      let t := tick_bridges bs 0 s
      match inner_loop P bs fuel t.1 with
      | none => none
      | some r => some (r.1, t.2 ++ r.2)
    else some (s, [])

/-- The outer control loop of `firesim_top_t::run`:
`while (!simulation_complete() && !has_timed_out()) {
run_scheduled_tasks(); step(get_largest_stepsize(), false); inner loop }`,
with explicit fuel for both loops. -/
def outer_loop {σ : Type} (P : Platform σ) (bs : List (bridge_driver_t σ)) :
    List (host_task σ) → Nat → Nat → σ → Option (List (host_task σ) × σ × List Event)
  | _tasks, 0, _, _ => none
  | tasks, ofuel + 1, ifuel, s =>
    if !(firesim_top_t.simulation_complete bs s) && !(P.has_timed_out s) then
      let tk := run_scheduled_tasks tasks s
      let s2 := P.step tk.2.1
      match inner_loop P bs ifuel s2 with
      | none => none
      | some inr =>
        match outer_loop P bs tk.1 ofuel ifuel inr.1 with
        | none => none
        | some rest =>
          some (rest.1, rest.2.1, tk.2.2 ++ Event.stepAdvance :: inr.2 ++ rest.2.2)
    else some (tasks, s, [])

/-- The pre-loop section of `firesim_top_t::run` (lines before the outer
loop): init every model then every bridge, the optional DRAM zeroing pass,
the "Commencing simulation." report, the `start_hcycle`/`start_time`
snapshots, and `target_reset(50)`.  Returns the world handed to the loop,
the two snapshots, and the event trace. -/
def run_pre {σ : Type} (P : Platform σ) (top : firesim_top_t σ) (s0 : σ) :
    σ × Nat × ℚ × List Event :=
  let im := init_models top.fpga_models 0 s0
  let ib := init_bridges top.bridges 0 im.1
  let z : σ × List Event :=
    if top.do_zero_out_dram then (P.zero_out_dram ib.1, [Event.zeroDram]) else (ib.1, [])
  let start_hcycle := P.hcycle z.1
  let start_time := P.timestamp z.1
  let s4 := P.target_reset 50 z.1
  (s4, start_hcycle, start_time,
    im.2 ++ ib.2 ++ z.2 ++ [Event.commencing, Event.targetReset 50])

/-- Simulation speed in kHz as computed at loop exit:
`((double) end_cycle) / (sim_time * 1000.0)`. -/
def sim_speed (end_cycle : Nat) (sim_time : ℚ) : ℚ :=
  (end_cycle : ℚ) / (sim_time * 1000)

/-- The unit choice of the elapsed-time/speed line:
`if (sim_speed > 1000.0)` report MHz, else kHz. -/
def speed_is_mhz (s : ℚ) : Bool := decide (1000 < s)

/-- FPGA-cycles-to-model-cycles ratio: `(double) hcycles / end_cycle`. -/
def fmr (hcycles end_cycle : Nat) : ℚ := (hcycles : ℚ) / (end_cycle : ℚ)

/-- The verdict line printed at loop exit: a non-zero aggregated exit code
reports FAILED (code); otherwise a timeout without any driver terminating
reports FAILED (timeout); otherwise PASSED. -/
def verdict_event (exitcode : Int) (complete timedout : Bool) (cycles : Nat) : Event :=
  if exitcode ≠ 0 then Event.failedCode exitcode cycles
  else if !complete && timedout then Event.failedTimeout cycles
  else Event.passed cycles

/-- The post-loop section of `firesim_top_t::run`: metric snapshots, the
report lines (trailing newline, verdict, speed line with its kHz/MHz unit
choice, FMR line), `expect(!exitcode, NULL)` — modelled from the spec as
recording a fatal condition without touching any driver, with finalization
still running — and then `finish()` on every model and every bridge.
Returns the final world, the trace, and the fatal flag. -/
def run_post {σ : Type} (P : Platform σ) (top : firesim_top_t σ)
    (start_hcycle : Nat) (start_time : ℚ) (s : σ) : σ × List Event × Bool :=
  let end_time := P.timestamp s
  let end_cycle := P.actual_tcycle s
  let hcycles := P.hcycle s - start_hcycle
  let sim_time := end_time - start_time
  let spd := sim_speed end_cycle sim_time
  let exitcode := firesim_top_t.exit_code top.bridges s
  let vEv := verdict_event exitcode (firesim_top_t.simulation_complete top.bridges s)
      (P.has_timed_out s) end_cycle
  let sEv := if speed_is_mhz spd then Event.speedMHz else Event.speedKHz
  let _f := fmr hcycles end_cycle
  let fatal := decide (exitcode ≠ 0)
  let fm := finish_models top.fpga_models 0 s
  let fb := finish_bridges top.bridges 0 fm.1
  (fb.1,
    Event.newline :: vEv :: sEv :: Event.fmrLine :: Event.expectCall exitcode :: (fm.2 ++ fb.2),
    fatal)

/-- Countdown evolution of a never-disabling task whose callback always
returns the same delay: period `p`, one scheduler check per step. -/
def cd_step (p c : Nat) : Nat := if c = 0 then p - 1 else c - 1

/-- Iterated countdown evolution over `n` scheduler checks. -/
def cd_iter (p : Nat) : Nat → Nat → Nat
  | c, 0 => c
  | c, n + 1 => cd_iter p (cd_step p c) n

/-- `firesim_top_t::run`: the pre-loop section, the fueled control loop,
and the post-loop section; `none` when the loop fuel ran out before the
stop condition held. -/
def firesim_top_t.run {σ : Type} (P : Platform σ) (top : firesim_top_t σ)
    (ofuel ifuel : Nat) (s0 : σ) : Option (σ × List Event × Bool) :=
  let pre := run_pre P top s0
  match outer_loop P top.bridges top.tasks ofuel ifuel pre.1 with
  | none => none
  | some r =>
    let post := run_post P top pre.2.1 pre.2.2.1 r.2.1
    some (post.1, pre.2.2.2 ++ r.2.2 ++ post.2.1, post.2.2)


/-- A task whose callback only ever emits `profileModel` events. -/
def profile_only {σ : Type} (t : host_task σ) : Prop :=
  ∀ s : σ, ∀ e ∈ (t.callback s).2.1, ∃ i, e = Event.profileModel i

/-- An event the control loop itself can emit: a profiling pass, a
target-time advance, or a bridge tick. -/
def loop_event (e : Event) : Prop :=
  (∃ i, e = Event.profileModel i) ∨ e = Event.stepAdvance ∨ ∃ i, e = Event.bridgeTick i

/-- The default-constructed orchestrator state the constructor starts
from, before the argument loop: `max_cycles = -1`,
`profile_interval = max_cycles`, `do_zero_out_dram = false`, the
externally assembled registration lists, and no tasks. -/
def c_default {σ : Type} (ms : List (FpgaModel σ)) (bs : List (bridge_driver_t σ)) :
    firesim_top_t σ :=
  { max_cycles := -1, profile_interval := -1, do_zero_out_dram := false
    fpga_models := ms, bridges := bs, tasks := [] }

/-- Test double: a stateless bridge driver with a constant exit code and
termination flag. -/
def unit_bridge (code : Int) (term : Bool) : bridge_driver_t Unit :=
  { init := id, tick := id, terminate := fun _ => term
    exit_code := fun _ => code, finish := id }

/-- Test double: a stateless FPGA model. -/
def unit_model : FpgaModel Unit :=
  { init := id, profile := id, finish := id }

/-- Test double: a platform over the unit world that is always ready to
advance, never times out, and reports 100 target cycles. -/
def unit_platform : Platform Unit :=
  { done := fun _ => true, has_timed_out := fun _ => false, step := id
    target_reset := fun _ => id, zero_out_dram := id
    actual_tcycle := fun _ => 100, hcycle := fun _ => 0, timestamp := fun _ => 0 }

/-- Test double over a counter world: `tick` advances the counter and the
driver terminates once the counter reaches 1. -/
def nat_bridge : bridge_driver_t Nat :=
  { init := id, tick := Nat.succ, terminate := fun s => decide (1 ≤ s)
    exit_code := fun _ => 0, finish := id }

/-- Test double: an FPGA model over the counter world. -/
def nat_model : FpgaModel Nat :=
  { init := id, profile := id, finish := id }

/-- Test double: a platform over the counter world that becomes ready to
advance once the counter reaches 1 and never times out. -/
def nat_platform : Platform Nat :=
  { done := fun s => decide (1 ≤ s), has_timed_out := fun _ => false, step := id
    target_reset := fun _ => id, zero_out_dram := id
    actual_tcycle := fun s => s, hcycle := fun _ => 0, timestamp := fun _ => 0 }

/-! Trace-shape lemmas for the per-component loops. -/

/-- Trace of `init_models`: one `modelInit` event per model, indexed from
`i`, in registration order. -/
lemma init_models_snd {σ : Type} (ms : List (FpgaModel σ)) :
    ∀ (i : Nat) (s : σ),
      (init_models ms i s).2 = (List.range ms.length).map (fun j => Event.modelInit (i + j)) := by
  induction ms with
  | nil => intro i s; simp [init_models]
  | cons m ms ih =>
    intro i s
    have he : (fun j => Event.modelInit (i + 1 + j)) = fun j => Event.modelInit (i + Nat.succ j) := by
      funext j; congr 1; omega
    simp [init_models, ih, List.range_succ_eq_map, List.map_map, Function.comp, he]

/-- Trace of `init_models` started at index 0. -/
lemma init_models_snd0 {σ : Type} (ms : List (FpgaModel σ)) (s : σ) :
    (init_models ms 0 s).2 = (List.range ms.length).map Event.modelInit := by
  simp [init_models_snd]

/-- Trace of `init_bridges`: one `bridgeInit` event per bridge, indexed
from `i`, in registration order. -/
lemma init_bridges_snd {σ : Type} (bs : List (bridge_driver_t σ)) :
    ∀ (i : Nat) (s : σ),
      (init_bridges bs i s).2 = (List.range bs.length).map (fun j => Event.bridgeInit (i + j)) := by
  induction bs with
  | nil => intro i s; simp [init_bridges]
  | cons e es ih =>
    intro i s
    have he : (fun j => Event.bridgeInit (i + 1 + j)) = fun j => Event.bridgeInit (i + Nat.succ j) := by
      funext j; congr 1; omega
    simp [init_bridges, ih, List.range_succ_eq_map, List.map_map, Function.comp, he]

/-- Trace of `init_bridges` started at index 0. -/
lemma init_bridges_snd0 {σ : Type} (bs : List (bridge_driver_t σ)) (s : σ) :
    (init_bridges bs 0 s).2 = (List.range bs.length).map Event.bridgeInit := by
  simp [init_bridges_snd]

/-- Trace of `tick_bridges`: one `bridgeTick` event per bridge, indexed
from `i`, in registration order. -/
lemma tick_bridges_snd {σ : Type} (bs : List (bridge_driver_t σ)) :
    ∀ (i : Nat) (s : σ),
      (tick_bridges bs i s).2 = (List.range bs.length).map (fun j => Event.bridgeTick (i + j)) := by
  induction bs with
  | nil => intro i s; simp [tick_bridges]
  | cons e es ih =>
    intro i s
    have he : (fun j => Event.bridgeTick (i + 1 + j)) = fun j => Event.bridgeTick (i + Nat.succ j) := by
      funext j; congr 1; omega
    simp [tick_bridges, ih, List.range_succ_eq_map, List.map_map, Function.comp, he]

/-- Trace of `tick_bridges` started at index 0. -/
lemma tick_bridges_snd0 {σ : Type} (bs : List (bridge_driver_t σ)) (s : σ) :
    (tick_bridges bs 0 s).2 = (List.range bs.length).map Event.bridgeTick := by
  simp [tick_bridges_snd]

/-- Trace of `finish_models`: one `modelFinish` event per model, indexed
from `i`, in registration order. -/
lemma finish_models_snd {σ : Type} (ms : List (FpgaModel σ)) :
    ∀ (i : Nat) (s : σ),
      (finish_models ms i s).2 = (List.range ms.length).map (fun j => Event.modelFinish (i + j)) := by
  induction ms with
  | nil => intro i s; simp [finish_models]
  | cons m ms ih =>
    intro i s
    have he : (fun j => Event.modelFinish (i + 1 + j)) = fun j => Event.modelFinish (i + Nat.succ j) := by
      funext j; congr 1; omega
    simp [finish_models, ih, List.range_succ_eq_map, List.map_map, Function.comp, he]

/-- Trace of `finish_models` started at index 0. -/
lemma finish_models_snd0 {σ : Type} (ms : List (FpgaModel σ)) (s : σ) :
    (finish_models ms 0 s).2 = (List.range ms.length).map Event.modelFinish := by
  simp [finish_models_snd]

/-- Trace of `finish_bridges`: one `bridgeFinish` event per bridge,
indexed from `i`, in registration order. -/
lemma finish_bridges_snd {σ : Type} (bs : List (bridge_driver_t σ)) :
    ∀ (i : Nat) (s : σ),
      (finish_bridges bs i s).2 = (List.range bs.length).map (fun j => Event.bridgeFinish (i + j)) := by
  induction bs with
  | nil => intro i s; simp [finish_bridges]
  | cons e es ih =>
    intro i s
    have he : (fun j => Event.bridgeFinish (i + 1 + j)) = fun j => Event.bridgeFinish (i + Nat.succ j) := by
      funext j; congr 1; omega
    simp [finish_bridges, ih, List.range_succ_eq_map, List.map_map, Function.comp, he]

/-- Trace of `finish_bridges` started at index 0. -/
lemma finish_bridges_snd0 {σ : Type} (bs : List (bridge_driver_t σ)) (s : σ) :
    (finish_bridges bs 0 s).2 = (List.range bs.length).map Event.bridgeFinish := by
  simp [finish_bridges_snd]

/-- Trace of `profile_go`: one `profileModel` event per model, indexed
from `i`, in registration order. -/
lemma profile_go_snd {σ : Type} (ms : List (FpgaModel σ)) :
    ∀ (i : Nat) (s : σ),
      (profile_go ms i s).2 = (List.range ms.length).map (fun j => Event.profileModel (i + j)) := by
  induction ms with
  | nil => intro i s; simp [profile_go]
  | cons m ms ih =>
    intro i s
    have he : (fun j => Event.profileModel (i + 1 + j)) = fun j => Event.profileModel (i + Nat.succ j) := by
      funext j; congr 1; omega
    simp [profile_go, ih, List.range_succ_eq_map, List.map_map, Function.comp, he]

/-- Trace of `profile_go` started at index 0. -/
lemma profile_go_snd0 {σ : Type} (ms : List (FpgaModel σ)) (s : σ) :
    (profile_go ms 0 s).2 = (List.range ms.length).map Event.profileModel := by
  simp [profile_go_snd]

/-! Characterizations of the orchestrator's query functions. -/

/-- Folding `||` over the bridges from any accumulator is the accumulator
OR-ed with `any`. -/
lemma foldl_or_terminate {σ : Type} (s : σ) (bs : List (bridge_driver_t σ)) :
    ∀ acc : Bool,
      bs.foldl (fun is_complete e => is_complete || e.terminate s) acc
        = (acc || bs.any fun e => e.terminate s) := by
  induction bs with
  | nil => intro acc; simp
  | cons e es ih => intro acc; simp [ih, Bool.or_assoc]

/-- `simulation_complete` is the disjunction of `terminate()` over the
registered bridges. -/
lemma simulation_complete_iff {σ : Type} (bs : List (bridge_driver_t σ)) (s : σ) :
    firesim_top_t.simulation_complete bs s = true ↔ ∃ e ∈ bs, e.terminate s = true := by
  rw [firesim_top_t.simulation_complete, foldl_or_terminate]
  simp [List.any_eq_true]

/-- `exit_code` returns the first non-zero driver code in registration
order, and 0 when there is none. -/
lemma exit_code_eq_find {σ : Type} (bs : List (bridge_driver_t σ)) (s : σ) :
    firesim_top_t.exit_code bs s
      = (((bs.map fun e => e.exit_code s).find? fun c => c != 0).getD 0) := by
  induction bs with
  | nil => simp [firesim_top_t.exit_code]
  | cons e es ih =>
    by_cases h : e.exit_code s = 0
    · have hb : ((e.exit_code s) != 0) = false := by simp [h]
      rw [firesim_top_t.exit_code, List.map_cons]
      simp only [List.find?_cons, hb]
      simp [h, ih]
    · have hb : ((e.exit_code s) != 0) = true := by simp [h]
      rw [firesim_top_t.exit_code, List.map_cons]
      simp only [List.find?_cons, hb]
      simp [h]

/-- The verdict line is always one of the three verdict constructors. -/
lemma verdict_event_cases (c : Int) (b t : Bool) (cyc : Nat) :
    verdict_event c b t cyc = Event.failedCode c cyc
      ∨ verdict_event c b t cyc = Event.failedTimeout cyc
      ∨ verdict_event c b t cyc = Event.passed cyc := by
  unfold verdict_event
  split
  · exact Or.inl rfl
  split
  · exact Or.inr (Or.inl rfl)
  · exact Or.inr (Or.inr rfl)

/-! Trace shape of the pre- and post-loop sections and of `run`. -/

/-- Trace of the pre-loop section: model inits, bridge inits, the optional
zeroing pass, the commencing report, and the 50-cycle reset assertion, in
that order. -/
lemma run_pre_trace {σ : Type} (P : Platform σ) (top : firesim_top_t σ) (s0 : σ) :
    (run_pre P top s0).2.2.2
      = (List.range top.fpga_models.length).map Event.modelInit
        ++ (List.range top.bridges.length).map Event.bridgeInit
        ++ (if top.do_zero_out_dram then [Event.zeroDram] else [])
        ++ [Event.commencing, Event.targetReset 50] := by
  cases h : top.do_zero_out_dram <;>
    simp [run_pre, h, init_models_snd0, init_bridges_snd0]

/-- Trace of the post-loop section: newline, verdict, speed-unit line,
FMR line, the `expect` check, then every model's `finish` and every
bridge's `finish` in registration order. -/
lemma run_post_trace {σ : Type} (P : Platform σ) (top : firesim_top_t σ)
    (start_hcycle : Nat) (start_time : ℚ) (s : σ) :
    (run_post P top start_hcycle start_time s).2.1
      = Event.newline
        :: verdict_event (firesim_top_t.exit_code top.bridges s)
            (firesim_top_t.simulation_complete top.bridges s) (P.has_timed_out s)
            (P.actual_tcycle s)
        :: (if speed_is_mhz (sim_speed (P.actual_tcycle s) (P.timestamp s - start_time))
            then Event.speedMHz else Event.speedKHz)
        :: Event.fmrLine
        :: Event.expectCall (firesim_top_t.exit_code top.bridges s)
        :: ((List.range top.fpga_models.length).map Event.modelFinish
            ++ (List.range top.bridges.length).map Event.bridgeFinish) := by
  simp [run_post, finish_models_snd0, finish_bridges_snd0]

/-- The fatal flag of the post-loop section is exactly "the aggregated
exit code is non-zero". -/
lemma run_post_fatal {σ : Type} (P : Platform σ) (top : firesim_top_t σ)
    (start_hcycle : Nat) (start_time : ℚ) (s : σ) :
    (run_post P top start_hcycle start_time s).2.2
      = decide (firesim_top_t.exit_code top.bridges s ≠ 0) := rfl

/-- Decomposition of a completed `run`: the pre-loop trace, the loop trace
(with the loop-exit world `s5`), and the post-loop trace. -/
lemma run_shape {σ : Type} (P : Platform σ) (top : firesim_top_t σ)
    (ofuel ifuel : Nat) (s0 s : σ) (tr : List Event) (fatal : Bool)
    (h : firesim_top_t.run P top ofuel ifuel s0 = some (s, tr, fatal)) :
    ∃ tasks1 s5 trL,
      outer_loop P top.bridges top.tasks ofuel ifuel (run_pre P top s0).1
          = some (tasks1, s5, trL)
        ∧ tr = (run_pre P top s0).2.2.2 ++ trL
            ++ (run_post P top (run_pre P top s0).2.1 (run_pre P top s0).2.2.1 s5).2.1
        ∧ fatal = (run_post P top (run_pre P top s0).2.1 (run_pre P top s0).2.2.1 s5).2.2
        ∧ s = (run_post P top (run_pre P top s0).2.1 (run_pre P top s0).2.2.1 s5).1 := by
  unfold firesim_top_t.run at h
  cases hO : outer_loop P top.bridges top.tasks ofuel ifuel (run_pre P top s0).1 with
  | none =>
    simp only [hO] at h
    exact Option.noConfusion h
  | some r =>
    obtain ⟨tasks1, s5, trL⟩ := r
    simp only [hO, Option.some.injEq, Prod.mk.injEq] at h
    obtain ⟨h1, h2, h3⟩ := h
    exact ⟨tasks1, s5, trL, rfl, h2.symm, h3.symm, h1.symm⟩

/-! Loop-trace structure. -/

/-- Every completed inner loop produces some number of complete tick
sweeps: each inner iteration ticks every bridge once, in registration
order. -/
lemma inner_loop_trace {σ : Type} (P : Platform σ) (bs : List (bridge_driver_t σ)) :
    ∀ (fuel : Nat) (s s' : σ) (tr : List Event),
      inner_loop P bs fuel s = some (s', tr) →
      ∃ k, tr = (List.replicate k ((List.range bs.length).map Event.bridgeTick)).flatten := by
  intro fuel
  induction fuel with
  | zero => intro s s' tr h; exact Option.noConfusion h
  | succ fuel ih =>
    intro s s' tr h
    rw [inner_loop] at h
    split at h
    · dsimp only at h
      cases hr : inner_loop P bs fuel (tick_bridges bs 0 s).1 with
      | none => rw [hr] at h; exact Option.noConfusion h
      | some r =>
        rw [hr] at h
        simp only [Option.some.injEq, Prod.mk.injEq] at h
        obtain ⟨k, hk⟩ := ih _ r.1 r.2 (by rw [hr])
        refine ⟨k + 1, ?_⟩
        rw [← h.2, tick_bridges_snd0, hk, List.replicate_succ, List.flatten_cons]
    · simp only [Option.some.injEq, Prod.mk.injEq] at h
      exact ⟨0, by rw [← h.2]; rfl⟩

/-- Scheduler checks over profile-only tasks emit only `profileModel`
events, and the surviving tasks stay profile-only. -/
lemma run_scheduled_tasks_events {σ : Type} :
    ∀ (ts : List (host_task σ)) (s : σ), (∀ t ∈ ts, profile_only t) →
      (∀ e ∈ (run_scheduled_tasks ts s).2.2, ∃ i, e = Event.profileModel i)
        ∧ (∀ t ∈ (run_scheduled_tasks ts s).1, profile_only t) := by
  intro ts
  induction ts with
  | nil => intro s h; simp [run_scheduled_tasks]
  | cons t ts ih =>
    intro s h
    have ht : profile_only t := h t (List.mem_cons_self t ts)
    have hts : ∀ t' ∈ ts, profile_only t' := fun t' h' => h t' (List.mem_cons_of_mem t h')
    rw [run_scheduled_tasks]
    split
    all_goals dsimp only
    · obtain ⟨ihe, iht⟩ := ih (t.callback s).1 hts
      split
      · constructor
        · intro e he
          rcases List.mem_append.mp he with h1 | h2
          · exact ht s e h1
          · exact ihe e h2
        · exact iht
      · constructor
        · intro e he
          rcases List.mem_append.mp he with h1 | h2
          · exact ht s e h1
          · exact ihe e h2
        · intro t' ht'
          rcases List.mem_cons.mp ht' with h1 | h2
          · subst h1; exact ht
          · exact iht t' h2
    · obtain ⟨ihe, iht⟩ := ih s hts
      constructor
      · exact ihe
      · intro t' ht'
        rcases List.mem_cons.mp ht' with h1 | h2
        · subst h1; exact ht
        · exact iht t' h2

/-- A completed outer loop whose tasks are profile-only emits only loop
events: profiling passes, step advances, and bridge ticks. -/
lemma outer_loop_events {σ : Type} (P : Platform σ) (bs : List (bridge_driver_t σ)) :
    ∀ (ofuel : Nat) (tasks : List (host_task σ)) (ifuel : Nat) (s : σ)
      (r : List (host_task σ) × σ × List Event),
      (∀ t ∈ tasks, profile_only t) →
      outer_loop P bs tasks ofuel ifuel s = some r →
      ∀ e ∈ r.2.2, loop_event e := by
  intro ofuel
  induction ofuel with
  | zero => intro tasks ifuel s r _ h; exact Option.noConfusion h
  | succ ofuel ih =>
    intro tasks ifuel s r htasks h
    rw [outer_loop] at h
    split at h
    · dsimp only at h
      cases hin : inner_loop P bs ifuel (P.step (run_scheduled_tasks tasks s).2.1) with
      | none => rw [hin] at h; exact Option.noConfusion h
      | some inr =>
        rw [hin] at h
        dsimp only at h
        cases hrest : outer_loop P bs (run_scheduled_tasks tasks s).1 ofuel ifuel inr.1 with
        | none => rw [hrest] at h; exact Option.noConfusion h
        | some rest =>
          rw [hrest] at h
          simp only [Option.some.injEq] at h
          obtain ⟨hsch, hsch2⟩ := run_scheduled_tasks_events tasks s htasks
          intro e he
          rw [← h] at he
          dsimp only at he
          rcases List.mem_append.mp he with hL | h5
          rcases List.mem_append.mp hL with h1 | hx
          · exact Or.inl (hsch e h1)
          · rcases List.mem_cons.mp hx with h2 | h4
            · exact Or.inr (Or.inl h2)
            · obtain ⟨k, hk⟩ := inner_loop_trace P bs ifuel _ inr.1 inr.2 (by rw [hin])
              rw [hk] at h4
              obtain ⟨blk, hblk, hmem⟩ := List.mem_flatten.mp h4
              rw [List.eq_of_mem_replicate hblk] at hmem
              obtain ⟨i, _, hi⟩ := List.mem_map.mp hmem
              exact Or.inr (Or.inr ⟨i, hi.symm⟩)
          · exact ih (run_scheduled_tasks tasks s).1 ifuel inr.1 rest hsch2 (by rw [hrest]) e h5
    · simp only [Option.some.injEq] at h
      rw [← h]
      intro e he
      exact absurd he (List.not_mem_nil e)

/-- As soon as any driver reports termination or the timeout predicate
trips, the outer loop exits at its next check, with no further body
execution. -/
lemma outer_loop_exit {σ : Type} (P : Platform σ) (bs : List (bridge_driver_t σ))
    (tasks : List (host_task σ)) (ofuel ifuel : Nat) (s : σ)
    (h : (firesim_top_t.simulation_complete bs s || P.has_timed_out s) = true) :
    outer_loop P bs tasks (ofuel + 1) ifuel s = some (tasks, s, []) := by
  rw [outer_loop]
  have hg : (!firesim_top_t.simulation_complete bs s && !P.has_timed_out s) = false := by
    cases hq : firesim_top_t.simulation_complete bs s <;>
      cases hw : P.has_timed_out s <;> simp_all
  simp [hg]

/-! Counting helpers for events generated from `List.range`. -/

/-- An injectively indexed event block contains each in-range event
exactly once. -/
lemma count_map_range_one (f : Nat → Event) (hf : Function.Injective f) {n i : Nat}
    (h : i < n) : ((List.range n).map f).count (f i) = 1 :=
  List.count_eq_one_of_mem ((List.nodup_range n).map hf)
    (List.mem_map.mpr ⟨i, List.mem_range.mpr h, rfl⟩)

/-- An event outside the image of the index function does not occur in the
block. -/
lemma count_map_range_zero (f : Nat → Event) (e : Event) (h : ∀ j, e ≠ f j) (n : Nat) :
    ((List.range n).map f).count e = 0 :=
  List.count_eq_zero.mpr fun hm => by
    obtain ⟨j, _, hj⟩ := List.mem_map.mp hm
    exact h j hj.symm

/-! Argument-parsing lemmas. -/

/-- A list is a `isPrefixOf`-prefix of itself followed by anything. -/
lemma isPrefixOf_append_self (l t : List Char) : l.isPrefixOf (l ++ t) = true := by
  rw [List.isPrefixOf_iff_prefix]
  exact List.prefix_append l t

/-- No extension of the `+max-cycles=` flag starts with the
`+profile-interval=` prefix. -/
lemma pProfile_not_pre_max (s : List Char) :
    pProfileInterval.isPrefixOf (pMaxCycles ++ s) = false := by
  have h1 : pMaxCycles ++ s = '+' :: 'm' :: ("ax-cycles=".toList ++ s) := rfl
  have h2 : pProfileInterval = '+' :: 'p' :: "rofile-interval=".toList := rfl
  have hpm : ('p' == 'm') = false := by decide
  rw [h1, h2]
  simp [List.isPrefixOf, hpm]

/-- No extension of the `+max-cycles=` flag starts with the
`+zero-out-dram` prefix. -/
lemma pZero_not_pre_max (s : List Char) :
    pZeroOutDram.isPrefixOf (pMaxCycles ++ s) = false := by
  have h1 : pMaxCycles ++ s = '+' :: 'm' :: ("ax-cycles=".toList ++ s) := rfl
  have h2 : pZeroOutDram = '+' :: 'z' :: "ero-out-dram".toList := rfl
  have hzm : ('z' == 'm') = false := by decide
  rw [h1, h2]
  simp [List.isPrefixOf, hzm]

/-- No extension of the `+profile-interval=` flag starts with the
`+max-cycles=` prefix. -/
lemma pMax_not_pre_profile (s : List Char) :
    pMaxCycles.isPrefixOf (pProfileInterval ++ s) = false := by
  have h1 : pProfileInterval ++ s = '+' :: 'p' :: ("rofile-interval=".toList ++ s) := rfl
  have h2 : pMaxCycles = '+' :: 'm' :: "ax-cycles=".toList := rfl
  have hmp : ('m' == 'p') = false := by decide
  rw [h1, h2]
  simp [List.isPrefixOf, hmp]

/-- No extension of the `+profile-interval=` flag starts with the
`+zero-out-dram` prefix. -/
lemma pZero_not_pre_profile (s : List Char) :
    pZeroOutDram.isPrefixOf (pProfileInterval ++ s) = false := by
  have h1 : pProfileInterval ++ s = '+' :: 'p' :: ("rofile-interval=".toList ++ s) := rfl
  have h2 : pZeroOutDram = '+' :: 'z' :: "ero-out-dram".toList := rfl
  have hzp : ('z' == 'p') = false := by decide
  rw [h1, h2]
  simp [List.isPrefixOf, hzp]

/-- An argument that does not start with `+max-cycles=` leaves
`max_cycles` unchanged. -/
lemma parse_step_max_of_neg {σ : Type} (c : firesim_top_t σ) (a : List Char)
    (h : pMaxCycles.isPrefixOf a = false) :
    (parse_arg_step c a).max_cycles = c.max_cycles := by
  simp only [parse_arg_step, h, Bool.false_eq_true, if_false]
  split <;> split <;> rfl

/-- An argument starting with `+max-cycles=` sets `max_cycles` to the
`atoi` of its remainder. -/
lemma parse_step_max_of_pos {σ : Type} (c : firesim_top_t σ) (a : List Char)
    (h : pMaxCycles.isPrefixOf a = true) :
    (parse_arg_step c a).max_cycles = atoi (a.drop 12) := by
  simp only [parse_arg_step, h, if_true]
  split <;> split <;> rfl

/-- An argument that does not start with `+profile-interval=` leaves
`profile_interval` unchanged. -/
lemma parse_step_profile_of_neg {σ : Type} (c : firesim_top_t σ) (a : List Char)
    (h : pProfileInterval.isPrefixOf a = false) :
    (parse_arg_step c a).profile_interval = c.profile_interval := by
  simp only [parse_arg_step, h, Bool.false_eq_true, if_false]
  split <;> split <;> rfl

/-- An argument starting with `+profile-interval=` sets
`profile_interval` to the `atoi` of its remainder. -/
lemma parse_step_profile_of_pos {σ : Type} (c : firesim_top_t σ) (a : List Char)
    (h : pProfileInterval.isPrefixOf a = true) :
    (parse_arg_step c a).profile_interval = atoi (a.drop 18) := by
  simp only [parse_arg_step, h, if_true]
  split <;> rfl

/-- One parse step ORs the zero-out-dram flag with "this argument starts
with `+zero-out-dram`". -/
lemma parse_step_zero {σ : Type} (c : firesim_top_t σ) (a : List Char) :
    (parse_arg_step c a).do_zero_out_dram
      = (c.do_zero_out_dram || pZeroOutDram.isPrefixOf a) := by
  by_cases h : pZeroOutDram.isPrefixOf a = true
  · simp only [parse_arg_step, h, if_true, Bool.or_true]
  · have h' : pZeroOutDram.isPrefixOf a = false := by
      cases hb : pZeroOutDram.isPrefixOf a
      · rfl
      · exact absurd hb h
    simp only [parse_arg_step, h', Bool.false_eq_true, if_false, Bool.or_false]
    split <;> split <;> rfl

/-- One parse step never touches the registration lists or the task
list. -/
lemma parse_step_registries {σ : Type} (c : firesim_top_t σ) (a : List Char) :
    (parse_arg_step c a).fpga_models = c.fpga_models
      ∧ (parse_arg_step c a).bridges = c.bridges
      ∧ (parse_arg_step c a).tasks = c.tasks := by
  unfold parse_arg_step
  split <;> split <;> split <;> exact ⟨rfl, rfl, rfl⟩

/-- Folding the parse step over arguments none of which starts with
`+max-cycles=` leaves `max_cycles` unchanged. -/
lemma foldl_max_of_none {σ : Type} :
    ∀ (args : List (List Char)) (c : firesim_top_t σ),
      (∀ a ∈ args, pMaxCycles.isPrefixOf a = false) →
      (args.foldl parse_arg_step c).max_cycles = c.max_cycles := by
  intro args
  induction args with
  | nil => intro c _; rfl
  | cons a args ih =>
    intro c h
    rw [List.foldl_cons, ih _ fun a' h' => h a' (List.mem_cons_of_mem a h'),
      parse_step_max_of_neg c a (h a (List.mem_cons_self a args))]

/-- Folding the parse step over arguments none of which starts with
`+profile-interval=` leaves `profile_interval` unchanged. -/
lemma foldl_profile_of_none {σ : Type} :
    ∀ (args : List (List Char)) (c : firesim_top_t σ),
      (∀ a ∈ args, pProfileInterval.isPrefixOf a = false) →
      (args.foldl parse_arg_step c).profile_interval = c.profile_interval := by
  intro args
  induction args with
  | nil => intro c _; rfl
  | cons a args ih =>
    intro c h
    rw [List.foldl_cons, ih _ fun a' h' => h a' (List.mem_cons_of_mem a h'),
      parse_step_profile_of_neg c a (h a (List.mem_cons_self a args))]

/-- Folding the parse step accumulates the zero-out-dram flag as an OR
over the arguments. -/
lemma foldl_zero {σ : Type} :
    ∀ (args : List (List Char)) (c : firesim_top_t σ),
      (args.foldl parse_arg_step c).do_zero_out_dram
        = (c.do_zero_out_dram || args.any fun a => pZeroOutDram.isPrefixOf a) := by
  intro args
  induction args with
  | nil => intro c; simp
  | cons a args ih =>
    intro c
    rw [List.foldl_cons, ih, parse_step_zero]
    simp [Bool.or_assoc]

/-- Folding the parse step never touches the registration lists or the
task list. -/
lemma foldl_registries {σ : Type} :
    ∀ (args : List (List Char)) (c : firesim_top_t σ),
      (args.foldl parse_arg_step c).fpga_models = c.fpga_models
        ∧ (args.foldl parse_arg_step c).bridges = c.bridges
        ∧ (args.foldl parse_arg_step c).tasks = c.tasks := by
  intro args
  induction args with
  | nil => intro c; exact ⟨rfl, rfl, rfl⟩
  | cons a args ih =>
    intro c
    rw [List.foldl_cons]
    obtain ⟨h1, h2, h3⟩ := ih (parse_arg_step c a)
    obtain ⟨g1, g2, g3⟩ := parse_step_registries c a
    exact ⟨h1.trans g1, h2.trans g2, h3.trans g3⟩

/-! Scheduler countdown arithmetic for the built-in profiling task. -/

/-- Countdown iteration peels from either end. -/
lemma cd_iter_succ (p : Nat) : ∀ (n c : Nat),
    cd_iter p c (n + 1) = cd_step p (cd_iter p c n) := by
  intro n
  induction n with
  | zero => intro c; rfl
  | succ n ih => intro c; rw [cd_iter, ih]; rfl

/-- Subtracting a residue from the modulus and reducing again. -/
lemma pm_mod (p r : Nat) (h : r < p) : (p - r) % p = if r = 0 then 0 else p - r := by
  split
  · simp_all [Nat.mod_self]
  · exact Nat.mod_eq_of_lt (by omega)

/-- Successor of a residue, with wraparound. -/
lemma succ_mod (p n : Nat) (hp : 1 ≤ p) :
    (n + 1) % p = if n % p + 1 = p then 0 else n % p + 1 := by
  rcases eq_or_lt_of_le hp with hp1 | hp2
  · rw [← hp1]; simp [Nat.mod_one]
  · have h1 : 1 % p = 1 := Nat.mod_eq_of_lt hp2
    have hr : n % p < p := Nat.mod_lt _ (by omega)
    rw [Nat.add_mod, h1]
    by_cases h : n % p + 1 = p
    · simp [h, Nat.mod_self]
    · simp only [h, if_false]
      exact Nat.mod_eq_of_lt (by omega)

/-- Closed form of the countdown after `n` checks, starting due. -/
lemma cd_closed (p : Nat) (hp : 1 ≤ p) : ∀ n, cd_iter p 0 n = (p - n % p) % p := by
  intro n
  induction n with
  | zero => simp [cd_iter, Nat.mod_self]
  | succ n ih =>
    rw [cd_iter_succ, ih]
    simp only [cd_step]
    have hr : n % p < p := Nat.mod_lt _ (by omega)
    rw [pm_mod p (n % p) hr, succ_mod p n hp]
    by_cases h1 : n % p + 1 = p
    · rw [if_pos h1, Nat.sub_zero, Nat.mod_self]
      by_cases h0 : n % p = 0
      · rw [if_pos h0, if_pos rfl]
        omega
      · rw [if_neg h0, if_neg (by omega : ¬ (p - n % p = 0))]
        omega
    · rw [if_neg h1, pm_mod p (n % p + 1) (by omega)]
      rw [if_neg (by omega : ¬ (n % p + 1 = 0))]
      by_cases h0 : n % p = 0
      · rw [if_pos h0, if_pos rfl]
        omega
      · rw [if_neg h0, if_neg (by omega : ¬ (p - n % p = 0))]
        omega

/-- The countdown is due exactly at multiples of the period. -/
lemma cd_zero_iff (p n : Nat) (hp : 1 ≤ p) : cd_iter p 0 n = 0 ↔ n % p = 0 := by
  rw [cd_closed p hp n]
  have hr : n % p < p := Nat.mod_lt _ (by omega)
  rw [pm_mod p (n % p) hr]
  by_cases h0 : n % p = 0
  · simp [h0]
  · simp [h0]
    omega

/-- One scheduler check on the single registered profiling task: when due,
it profiles every model and is rescheduled `(profile_interval - 1).toNat`
checks out (it is never removed, since its return value `profile_interval`
is not the disable sentinel); when not due, its countdown decrements. -/
lemma run_sched_profile_step {σ : Type} (ms : List (FpgaModel σ)) (pi : Int)
    (hpi : pi ≠ -1) (c : Nat) (s : σ) :
    run_scheduled_tasks
        [(⟨fun s => firesim_top_t.profile_models ms pi s, c⟩ : host_task σ)] s
      = if c = 0
        then ([⟨fun s => firesim_top_t.profile_models ms pi s, (pi - 1).toNat⟩],
              (profile_go ms 0 s).1, (profile_go ms 0 s).2)
        else ([⟨fun s => firesim_top_t.profile_models ms pi s, c - 1⟩], s, []) := by
  by_cases hc : c = 0
  · subst hc
    rw [run_scheduled_tasks]
    simp [run_scheduled_tasks, firesim_top_t.profile_models, hpi]
  · rw [run_scheduled_tasks]
    simp [run_scheduled_tasks, hc]

/-- After any number of scheduler checks, the single profiling task is
still registered (with the same callback) and its countdown follows the
pure countdown recurrence of period `max profile_interval.toNat 1`. -/
lemma sched_iter_profile {σ : Type} (ms : List (FpgaModel σ)) (pi : Int) (hpi : pi ≠ -1) :
    ∀ (n : Nat) (c : Nat) (s : σ),
      (sched_iter [(⟨fun s => firesim_top_t.profile_models ms pi s, c⟩ : host_task σ)] s n).1
        = [⟨fun s => firesim_top_t.profile_models ms pi s,
            cd_iter (max pi.toNat 1) c n⟩] := by
  intro n
  induction n with
  | zero => intro c s; rfl
  | succ n ih =>
    intro c s
    rw [sched_iter]
    rw [run_sched_profile_step ms pi hpi c s]
    by_cases hc : c = 0
    · subst hc
      rw [if_pos rfl]
      dsimp only
      rw [ih]
      have hn : (pi - 1).toNat = max pi.toNat 1 - 1 := by omega
      rw [hn]
      rfl
    · rw [if_neg hc]
      dsimp only
      rw [ih]
      have hs : cd_step (max pi.toNat 1) c = c - 1 := by
        simp [cd_step, hc]
      rw [show cd_iter (max pi.toNat 1) c (n + 1)
            = cd_iter (max pi.toNat 1) (cd_step (max pi.toNat 1) c) n from rfl, hs]

/-! Constructor projections. -/

/-- The constructor's `max_cycles` is whatever the argument loop left. -/
lemma construct_max {σ : Type} (args : List (List Char)) (ms : List (FpgaModel σ))
    (bs : List (bridge_driver_t σ)) :
    (firesim_top_t.construct σ args ms bs).max_cycles
      = (args.foldl parse_arg_step (c_default ms bs)).max_cycles := by
  unfold firesim_top_t.construct
  dsimp only [c_default]
  split <;> rfl

/-- The constructor's `profile_interval` is whatever the argument loop
left. -/
lemma construct_profile {σ : Type} (args : List (List Char)) (ms : List (FpgaModel σ))
    (bs : List (bridge_driver_t σ)) :
    (firesim_top_t.construct σ args ms bs).profile_interval
      = (args.foldl parse_arg_step (c_default ms bs)).profile_interval := by
  unfold firesim_top_t.construct
  dsimp only [c_default]
  split <;> rfl

/-- The constructor's `do_zero_out_dram` is whatever the argument loop
left. -/
lemma construct_zero {σ : Type} (args : List (List Char)) (ms : List (FpgaModel σ))
    (bs : List (bridge_driver_t σ)) :
    (firesim_top_t.construct σ args ms bs).do_zero_out_dram
      = (args.foldl parse_arg_step (c_default ms bs)).do_zero_out_dram := by
  unfold firesim_top_t.construct
  dsimp only [c_default]
  split <;> rfl

/-- The constructor registers the models and bridges it is handed,
unchanged. -/
lemma construct_registries {σ : Type} (args : List (List Char)) (ms : List (FpgaModel σ))
    (bs : List (bridge_driver_t σ)) :
    (firesim_top_t.construct σ args ms bs).fpga_models = ms
      ∧ (firesim_top_t.construct σ args ms bs).bridges = bs := by
  obtain ⟨h1, h2, _⟩ := foldl_registries (σ := σ) args (c_default ms bs)
  dsimp only [c_default] at h1 h2
  unfold firesim_top_t.construct
  dsimp only [c_default]
  split <;> exact ⟨h1, h2⟩

/-- The constructor's task registry: exactly the built-in profiling task
when `profile_interval` is not the disabled sentinel, and empty
otherwise. -/
lemma construct_tasks {σ : Type} (args : List (List Char)) (ms : List (FpgaModel σ))
    (bs : List (bridge_driver_t σ)) :
    (firesim_top_t.construct σ args ms bs).tasks
      = if (args.foldl parse_arg_step (c_default ms bs)).profile_interval ≠ -1
        then [profile_task ms (args.foldl parse_arg_step (c_default ms bs)).profile_interval]
        else [] := by
  obtain ⟨_, _, h3⟩ := foldl_registries (σ := σ) args (c_default ms bs)
  dsimp only [c_default] at h3
  unfold firesim_top_t.construct
  dsimp only [c_default]
  split
  · rfl
  · exact h3

/-- The built-in profiling task is profile-only. -/
lemma profile_task_profile_only {σ : Type} (ms : List (FpgaModel σ)) (pi : Int) :
    profile_only (profile_task ms pi) := by
  intro s e he
  simp only [profile_task, firesim_top_t.profile_models] at he
  rw [profile_go_snd0] at he
  obtain ⟨i, _, hi⟩ := List.mem_map.mp he
  exact ⟨i, hi.symm⟩

/-- Every task the constructor registers is profile-only. -/
lemma construct_tasks_profile_only {σ : Type} (args : List (List Char))
    (ms : List (FpgaModel σ)) (bs : List (bridge_driver_t σ)) :
    ∀ t ∈ (firesim_top_t.construct σ args ms bs).tasks, profile_only t := by
  intro t ht
  rw [construct_tasks] at ht
  split at ht
  · rcases List.mem_cons.mp ht with h | h
    · subst h; exact profile_task_profile_only _ _
    · exact absurd h (List.not_mem_nil t)
  · exact absurd ht (List.not_mem_nil t)

/-- C3: `exit_code()` returns the first non-zero value returned by a
driver's `exit_code()` when scanning the drivers in registration order,
and returns 0 if no driver reports a non-zero code; in particular, for
drivers reporting [0, 0, 3, 5] it returns 3, not 5 and not their sum. -/
theorem C3_exit_code_first_nonzero :
    (∀ (σ : Type) (bs : List (bridge_driver_t σ)) (s : σ),
        firesim_top_t.exit_code bs s
          = (((bs.map fun e => e.exit_code s).find? fun c => c != 0).getD 0))
      ∧ firesim_top_t.exit_code
          [unit_bridge 0 false, unit_bridge 0 false, unit_bridge 3 false, unit_bridge 5 false]
          () = 3
      ∧ firesim_top_t.exit_code
          [unit_bridge 0 false, unit_bridge 0 false, unit_bridge 3 false, unit_bridge 5 false]
          () ≠ 5
      ∧ firesim_top_t.exit_code
          [unit_bridge 0 false, unit_bridge 0 false, unit_bridge 3 false, unit_bridge 5 false]
          () ≠ 0 + 0 + 3 + 5 :=
  ⟨fun _ bs s => exit_code_eq_find bs s, by decide, by decide, by decide⟩

/-- C4: `simulation_complete()` returns true if and only if at least one
registered driver's `terminate()` returns true, and the outer loop, at
its next check, stops immediately (no further body execution) as soon as
that disjunction or the timeout predicate holds. -/
theorem C4_termination_disjunction :
    (∀ (σ : Type) (bs : List (bridge_driver_t σ)) (s : σ),
        firesim_top_t.simulation_complete bs s = true ↔ ∃ e ∈ bs, e.terminate s = true)
      ∧ (∀ (σ : Type) (P : Platform σ) (bs : List (bridge_driver_t σ))
          (tasks : List (host_task σ)) (ofuel ifuel : Nat) (s : σ),
          (firesim_top_t.simulation_complete bs s || P.has_timed_out s) = true →
          outer_loop P bs tasks (ofuel + 1) ifuel s = some (tasks, s, [])) :=
  ⟨fun _ bs s => simulation_complete_iff bs s,
   fun _ P bs tasks ofuel ifuel s h => outer_loop_exit P bs tasks ofuel ifuel s h⟩

/-- C4 witness: with a single driver whose `terminate()` is already true,
the outer loop exits at its first check with no body events. -/
theorem C4_termination_disjunction_witness :
    outer_loop unit_platform [unit_bridge 0 true] [] 1 1 () = some ([], (), []) :=
  C4_termination_disjunction.2 Unit unit_platform [unit_bridge 0 true] [] 0 1 () (by decide)

/-- C5: the verdict precedence — a non-zero aggregated exit code reports
FAILED (code) even under timeout; a timeout with no driver terminating
(and hence exit code 0) reports FAILED (timeout) with no fatal flag;
otherwise PASSED; and `run_post` prints exactly that verdict. -/
theorem C5_verdict_precedence :
    (∀ (c : Int) (complete timedout : Bool) (cyc : Nat), c ≠ 0 →
        verdict_event c complete timedout cyc = Event.failedCode c cyc)
      ∧ (∀ cyc : Nat, verdict_event 0 false true cyc = Event.failedTimeout cyc)
      ∧ (∀ (σ : Type) (P : Platform σ) (top : firesim_top_t σ) (sh : Nat) (st : ℚ) (s : σ),
          firesim_top_t.exit_code top.bridges s = 0 →
          (run_post P top sh st s).2.2 = false)
      ∧ (∀ (complete timedout : Bool) (cyc : Nat), (complete || !timedout) = true →
          verdict_event 0 complete timedout cyc = Event.passed cyc)
      ∧ (∀ (σ : Type) (P : Platform σ) (top : firesim_top_t σ) (sh : Nat) (st : ℚ) (s : σ),
          (run_post P top sh st s).2.1.get? 1
            = some (verdict_event (firesim_top_t.exit_code top.bridges s)
                (firesim_top_t.simulation_complete top.bridges s) (P.has_timed_out s)
                (P.actual_tcycle s))) := by
  refine ⟨?_, ?_, ?_, ?_, ?_⟩
  · intro c complete timedout cyc h
    rw [verdict_event, if_pos h]
  · intro cyc
    simp [verdict_event]
  · intro σ P top sh st s h
    rw [run_post_fatal]
    simp [h]
  · intro complete timedout cyc h
    cases complete <;> cases timedout <;> simp_all [verdict_event]
  · intro σ P top sh st s
    rw [run_post_trace]
    rfl

/-- C5 witness: a driver with exit code 7 that has terminated yields the
FAILED (code) verdict event, and a clean post-loop section carries no
fatal flag. -/
theorem C5_verdict_precedence_witness :
    verdict_event 7 false true 100 = Event.failedCode 7 100
      ∧ (run_post unit_platform
          ⟨-1, -1, false, [], [unit_bridge 0 false], []⟩ 0 0 ()).2.2 = false
      ∧ verdict_event 0 true false 100 = Event.passed 100 :=
  ⟨C5_verdict_precedence.1 7 false true 100 (by decide),
   C5_verdict_precedence.2.2.1 Unit unit_platform _ 0 0 () (by decide),
   C5_verdict_precedence.2.2.2.1 true false 100 (by decide)⟩

/-- C7: startup-argument interpretation — `max_cycles` defaults to −1
unless an argument starting with `+max-cycles=` supplies a value,
`profile_interval` defaults to −1 unless `+profile-interval=` supplies a
value, and `do_zero_out_dram` is set exactly when an argument starting
with `+zero-out-dram` is present. -/
theorem C7_startup_flags :
    (∀ (σ : Type) (ms : List (FpgaModel σ)) (bs : List (bridge_driver_t σ))
        (args : List (List Char)),
        (∀ a ∈ args, pMaxCycles.isPrefixOf a = false) →
        (firesim_top_t.construct σ args ms bs).max_cycles = -1)
  ∧ (∀ (σ : Type) (ms : List (FpgaModel σ)) (bs : List (bridge_driver_t σ))
        (args : List (List Char)),
        (∀ a ∈ args, pProfileInterval.isPrefixOf a = false) →
        (firesim_top_t.construct σ args ms bs).profile_interval = -1)
  ∧ (∀ (σ : Type) (ms : List (FpgaModel σ)) (bs : List (bridge_driver_t σ))
        (args : List (List Char)) (s : List Char),
        (firesim_top_t.construct σ (args ++ [pMaxCycles ++ s]) ms bs).max_cycles = atoi s)
  ∧ (∀ (σ : Type) (ms : List (FpgaModel σ)) (bs : List (bridge_driver_t σ))
        (args : List (List Char)) (s : List Char),
        (firesim_top_t.construct σ (args ++ [pProfileInterval ++ s]) ms bs).profile_interval
          = atoi s)
  ∧ (∀ (σ : Type) (ms : List (FpgaModel σ)) (bs : List (bridge_driver_t σ))
        (args : List (List Char)),
        (firesim_top_t.construct σ args ms bs).do_zero_out_dram = true
          ↔ ∃ a ∈ args, pZeroOutDram.isPrefixOf a = true) := by
  refine ⟨?_, ?_, ?_, ?_, ?_⟩
  · intro σ ms bs args h
    rw [construct_max, foldl_max_of_none args _ h]
    rfl
  · intro σ ms bs args h
    rw [construct_profile, foldl_profile_of_none args _ h]
    rfl
  · intro σ ms bs args s
    rw [construct_max, List.foldl_append]
    simp only [List.foldl_cons, List.foldl_nil]
    rw [parse_step_max_of_pos _ _ (isPrefixOf_append_self _ _)]
    have hl : pMaxCycles.length = 12 := rfl
    rw [← hl, List.drop_left]
  · intro σ ms bs args s
    rw [construct_profile, List.foldl_append]
    simp only [List.foldl_cons, List.foldl_nil]
    rw [parse_step_profile_of_pos _ _ (isPrefixOf_append_self _ _)]
    have hl : pProfileInterval.length = 18 := rfl
    rw [← hl, List.drop_left]
  · intro σ ms bs args
    rw [construct_zero, foldl_zero]
    simp [List.any_eq_true, c_default]

/-- C7 witness: `+max-cycles=100` sets `max_cycles` to 100, an empty
argument list leaves the defaults, and `+zero-out-dram` sets the flag. -/
theorem C7_startup_flags_witness :
    (firesim_top_t.construct Unit [[], pMaxCycles ++ "100".toList] [] []).max_cycles = atoi "100".toList
      ∧ (firesim_top_t.construct Unit [] ([] : List (FpgaModel Unit)) []).max_cycles = -1
      ∧ (firesim_top_t.construct Unit [pZeroOutDram] [] []).do_zero_out_dram = true :=
  ⟨C7_startup_flags.2.2.1 Unit [] [] [[]] "100".toList,
   C7_startup_flags.1 Unit [] [] [] (by intro a h; exact absurd h (List.not_mem_nil a)),
   (C7_startup_flags.2.2.2.2 Unit [] [] [pZeroOutDram]).mpr
     ⟨pZeroOutDram, List.mem_cons_self _ _, by decide⟩⟩

/-- C8: the constructor registers exactly one built-in task — profile all
attached FPGA models — if and only if `profile_interval` is not the −1
sentinel, and a requested DRAM-zeroing pass happens before the
"Commencing simulation" report. -/
theorem C8_builtin_task_and_zeroing :
    (∀ (σ : Type) (ms : List (FpgaModel σ)) (bs : List (bridge_driver_t σ))
        (args : List (List Char)),
        ((firesim_top_t.construct σ args ms bs).profile_interval ≠ -1 →
          (firesim_top_t.construct σ args ms bs).tasks
            = [profile_task ms (firesim_top_t.construct σ args ms bs).profile_interval])
        ∧ ((firesim_top_t.construct σ args ms bs).profile_interval = -1 →
          (firesim_top_t.construct σ args ms bs).tasks = []))
  ∧ (∀ (σ : Type) (ms : List (FpgaModel σ)) (pi : Int) (s : σ),
        (firesim_top_t.profile_models ms pi s).2.1
          = (List.range ms.length).map Event.profileModel)
  ∧ (∀ (σ : Type) (P : Platform σ) (top : firesim_top_t σ) (s0 : σ),
        top.do_zero_out_dram = true →
        ∃ pre post,
          (run_pre P top s0).2.2.2 = pre ++ Event.zeroDram :: Event.commencing :: post
            ∧ Event.zeroDram ∉ pre ∧ Event.commencing ∉ pre) := by
  refine ⟨?_, ?_, ?_⟩
  · intro σ ms bs args
    constructor
    · intro h
      rw [construct_profile] at h ⊢
      rw [construct_tasks, if_pos h]
    · intro h
      rw [construct_profile] at h
      rw [construct_tasks, if_neg (not_not_intro h)]
  · intro σ ms pi s
    simp [firesim_top_t.profile_models, profile_go_snd0]
  · intro σ P top s0 h
    rw [run_pre_trace, h]
    refine ⟨(List.range top.fpga_models.length).map Event.modelInit
        ++ (List.range top.bridges.length).map Event.bridgeInit,
      [Event.targetReset 50], by simp, ?_, ?_⟩
    · simp [List.mem_append, List.mem_map]
    · simp [List.mem_append, List.mem_map]

/-- C8 witness: with `+profile-interval=5` exactly the built-in profiling
task is registered; without it none is; and a zeroing run's pre-loop
trace places the zeroing pass immediately before "Commencing". -/
theorem C8_builtin_task_and_zeroing_witness :
    (firesim_top_t.construct Unit [pProfileInterval ++ "5".toList] [unit_model] []).tasks
        = [profile_task [unit_model]
            (firesim_top_t.construct Unit [pProfileInterval ++ "5".toList] [unit_model] []).profile_interval]
      ∧ (firesim_top_t.construct Unit [] [unit_model] []).tasks = []
      ∧ ∃ pre post,
          (run_pre unit_platform ⟨-1, -1, true, [], [], []⟩ ()).2.2.2
              = pre ++ Event.zeroDram :: Event.commencing :: post
            ∧ Event.zeroDram ∉ pre ∧ Event.commencing ∉ pre :=
  ⟨((C8_builtin_task_and_zeroing.1 Unit [unit_model] [] [pProfileInterval ++ "5".toList]).1
      (by decide)),
   ((C8_builtin_task_and_zeroing.1 Unit [unit_model] [] []).2 (by decide)),
   C8_builtin_task_and_zeroing.2.2 Unit unit_platform ⟨-1, -1, true, [], [], []⟩ () rfl⟩

/-- C9: the elapsed-time/speed report line chooses MHz exactly when the
computed speed in kHz is strictly greater than 1000 (at exactly 1000 kHz
it stays in kHz), both for the unit-choice predicate itself and for the
line `run_post` emits. -/
theorem C9_speed_unit_threshold :
    (∀ (c : Nat) (t : ℚ),
        (speed_is_mhz (sim_speed c t) = true ↔ 1000 < sim_speed c t))
      ∧ (∀ (c : Nat) (t : ℚ), sim_speed c t = 1000 → speed_is_mhz (sim_speed c t) = false)
      ∧ (∀ (c : Nat) (t : ℚ), 0 < t →
          (speed_is_mhz (sim_speed c t) = true ↔ 1000 * (t * 1000) < (c : ℚ)))
      ∧ sim_speed 1000000 1 = 1000
      ∧ speed_is_mhz (sim_speed 1000000 1) = false
      ∧ (∀ (σ : Type) (P : Platform σ) (top : firesim_top_t σ) (sh : Nat) (st : ℚ) (s : σ),
          Event.speedMHz ∈ (run_post P top sh st s).2.1
            ↔ 1000 < sim_speed (P.actual_tcycle s) (P.timestamp s - st)) := by
  refine ⟨?_, ?_, ?_, ?_, ?_, ?_⟩
  · intro c t
    simp [speed_is_mhz]
  · intro c t h
    simp [speed_is_mhz, h]
  · intro c t ht
    have hd : 0 < t * 1000 := by positivity
    rw [speed_is_mhz, decide_eq_true_eq, sim_speed, lt_div_iff₀ hd]
  · norm_num [sim_speed]
  · norm_num [speed_is_mhz, sim_speed]
  · intro σ P top sh st s
    rw [run_post_trace]
    by_cases hm : speed_is_mhz (sim_speed (P.actual_tcycle s) (P.timestamp s - st)) = true
    · rw [if_pos hm]
      simp only [speed_is_mhz, decide_eq_true_eq] at hm
      exact ⟨fun _ => hm, fun _ => by simp⟩
    · rw [if_neg hm]
      have hm' : ¬ 1000 < sim_speed (P.actual_tcycle s) (P.timestamp s - st) := by
        simpa [speed_is_mhz] using hm
      constructor
      · intro hmem
        exfalso
        rcases verdict_event_cases (firesim_top_t.exit_code top.bridges s)
            (firesim_top_t.simulation_complete top.bridges s) (P.has_timed_out s)
            (P.actual_tcycle s) with hv | hv | hv <;>
          simp [hv, List.mem_cons, List.mem_append, List.mem_map] at hmem
      · intro hlt
        exact absurd hlt hm'

/-- C9 witness: exactly one million cycles in one second is exactly
1000 kHz and reports kHz, and a faster run reports MHz. -/
theorem C9_speed_unit_threshold_witness :
    sim_speed 1000000 1 = 1000
      ∧ speed_is_mhz (sim_speed 1000000 1) = false
      ∧ (speed_is_mhz (sim_speed 2000000 1) = true ↔ 1000 < sim_speed 2000000 1)
      ∧ (speed_is_mhz (sim_speed 2000000 1) = true ↔ 1000 * ((1 : ℚ) * 1000) < (2000000 : ℚ)) :=
  ⟨C9_speed_unit_threshold.2.2.2.1,
   C9_speed_unit_threshold.2.2.2.2.1,
   C9_speed_unit_threshold.1 2000000 1,
   C9_speed_unit_threshold.2.2.1 2000000 1 (by norm_num)⟩

/-- C1: after the control loop stops and the report (newline, verdict,
speed line, FMR line) has been printed and the `expect` check recorded
its fatal condition, `finish()` runs on every FPGA model and then on
every bridge driver, in every completed run — also when the verdict is
FAILED — and the fatal flag is exactly "aggregated exit code non-zero". -/
theorem C1_finalization_always_runs (σ : Type) (P : Platform σ) (top : firesim_top_t σ)
    (ofuel ifuel : Nat) (s0 s : σ) (tr : List Event) (fatal : Bool)
    (h : firesim_top_t.run P top ofuel ifuel s0 = some (s, tr, fatal)) :
    ∃ (pre : List Event) (c : Int) (cyc : Nat) (vEv sEv : Event),
      tr = pre ++ [Event.newline, vEv, sEv, Event.fmrLine, Event.expectCall c]
          ++ (List.range top.fpga_models.length).map Event.modelFinish
          ++ (List.range top.bridges.length).map Event.bridgeFinish
        ∧ fatal = decide (c ≠ 0)
        ∧ (c ≠ 0 → vEv = Event.failedCode c cyc) := by
  obtain ⟨tasks1, s5, trL, hO, htr, hfatal, hs⟩ := run_shape P top ofuel ifuel s0 s tr fatal h
  refine ⟨(run_pre P top s0).2.2.2 ++ trL, firesim_top_t.exit_code top.bridges s5,
    P.actual_tcycle s5,
    verdict_event (firesim_top_t.exit_code top.bridges s5)
      (firesim_top_t.simulation_complete top.bridges s5) (P.has_timed_out s5)
      (P.actual_tcycle s5),
    (if speed_is_mhz (sim_speed (P.actual_tcycle s5)
          (P.timestamp s5 - (run_pre P top s0).2.2.1))
      then Event.speedMHz else Event.speedKHz), ?_, ?_, ?_⟩
  · rw [htr, run_post_trace]
    simp [List.append_assoc]
  · rw [hfatal, run_post_fatal]
  · intro hc
    rw [verdict_event, if_pos hc]

/-- Concrete evaluation of a one-model, one-bridge unit run whose driver
has already terminated with exit code 7. -/
lemma run_unit_concrete :
    firesim_top_t.run unit_platform
        (firesim_top_t.construct Unit [] [unit_model] [unit_bridge 7 true]) 1 1 ()
      = some ((),
          [Event.modelInit 0, Event.bridgeInit 0, Event.commencing, Event.targetReset 50,
            Event.newline, Event.failedCode 7 100, Event.speedKHz, Event.fmrLine,
            Event.expectCall 7, Event.modelFinish 0, Event.bridgeFinish 0],
          true) := by
  simp [firesim_top_t.run, run_pre, run_post, outer_loop, inner_loop, run_scheduled_tasks,
    firesim_top_t.construct, init_models, init_bridges, finish_models, finish_bridges,
    tick_bridges, firesim_top_t.simulation_complete, firesim_top_t.exit_code,
    unit_platform, unit_model, unit_bridge, verdict_event, c_default]
  norm_num [speed_is_mhz, sim_speed]

/-- Concrete evaluation of a counter-world run that performs one inner
tick sweep before its driver terminates cleanly. -/
lemma run_nat_concrete :
    firesim_top_t.run nat_platform
        (firesim_top_t.construct Nat [] [nat_model] [nat_bridge]) 2 2 0
      = some (1,
          [Event.modelInit 0, Event.bridgeInit 0, Event.commencing, Event.targetReset 50,
            Event.stepAdvance, Event.bridgeTick 0, Event.newline, Event.passed 1,
            Event.speedKHz, Event.fmrLine, Event.expectCall 0, Event.modelFinish 0,
            Event.bridgeFinish 0],
          false) := by
  simp [firesim_top_t.run, run_pre, run_post, outer_loop, inner_loop, run_scheduled_tasks,
    firesim_top_t.construct, init_models, init_bridges, finish_models, finish_bridges,
    tick_bridges, firesim_top_t.simulation_complete, firesim_top_t.exit_code,
    nat_platform, nat_model, nat_bridge, verdict_event, c_default]
  norm_num [speed_is_mhz, sim_speed]

/-- C1 witness: a one-model, one-bridge run whose driver reports exit
code 7 — the report and the fatal expect check are followed by the model
and bridge finish calls. -/
theorem C1_finalization_always_runs_witness :
    ∃ (pre : List Event) (c : Int) (cyc : Nat) (vEv sEv : Event),
      [Event.modelInit 0, Event.bridgeInit 0, Event.commencing, Event.targetReset 50,
        Event.newline, Event.failedCode 7 100, Event.speedKHz, Event.fmrLine,
        Event.expectCall 7, Event.modelFinish 0, Event.bridgeFinish 0]
        = pre ++ [Event.newline, vEv, sEv, Event.fmrLine, Event.expectCall c]
          ++ (List.range 1).map Event.modelFinish
          ++ (List.range 1).map Event.bridgeFinish
        ∧ true = decide (c ≠ 0)
        ∧ (c ≠ 0 → vEv = Event.failedCode c cyc) :=
  C1_finalization_always_runs Unit unit_platform
    (firesim_top_t.construct Unit [] [unit_model] [unit_bridge 7 true]) 1 1 () ()
    [Event.modelInit 0, Event.bridgeInit 0, Event.commencing, Event.targetReset 50,
      Event.newline, Event.failedCode 7 100, Event.speedKHz, Event.fmrLine,
      Event.expectCall 7, Event.modelFinish 0, Event.bridgeFinish 0]
    true run_unit_concrete

/-! Count bookkeeping for the post-loop and loop traces. -/

/-- The `modelInit` constructor is injective. -/
lemma modelInit_inj : Function.Injective Event.modelInit := fun a b h => by injection h

/-- The `bridgeInit` constructor is injective. -/
lemma bridgeInit_inj : Function.Injective Event.bridgeInit := fun a b h => by injection h

/-- The `modelFinish` constructor is injective. -/
lemma modelFinish_inj : Function.Injective Event.modelFinish := fun a b h => by injection h

/-- The `bridgeFinish` constructor is injective. -/
lemma bridgeFinish_inj : Function.Injective Event.bridgeFinish := fun a b h => by injection h

/-- An event that is neither a report event nor a finish event does not
occur in the post-loop trace. -/
lemma run_post_count_zero {σ : Type} (P : Platform σ) (top : firesim_top_t σ)
    (sh : Nat) (st : ℚ) (s : σ) (e : Event)
    (h1 : e ≠ Event.newline)
    (h2 : ∀ c cyc, e ≠ Event.failedCode c cyc)
    (h3 : ∀ cyc, e ≠ Event.failedTimeout cyc)
    (h4 : ∀ cyc, e ≠ Event.passed cyc)
    (h5 : e ≠ Event.speedMHz) (h6 : e ≠ Event.speedKHz) (h7 : e ≠ Event.fmrLine)
    (h8 : ∀ c, e ≠ Event.expectCall c)
    (h9 : ∀ i, e ≠ Event.modelFinish i)
    (h10 : ∀ i, e ≠ Event.bridgeFinish i) :
    ((run_post P top sh st s).2.1).count e = 0 := by
  rw [run_post_trace, List.count_eq_zero]
  intro hm
  simp only [List.mem_cons, List.mem_append, List.mem_map, List.mem_range] at hm
  rcases hm with h | h | h | h | h | h
  · exact h1 h
  · rcases verdict_event_cases (firesim_top_t.exit_code top.bridges s)
        (firesim_top_t.simulation_complete top.bridges s) (P.has_timed_out s)
        (P.actual_tcycle s) with hv | hv | hv
    · rw [hv] at h; exact h2 _ _ h
    · rw [hv] at h; exact h3 _ h
    · rw [hv] at h; exact h4 _ h
  · by_cases hsm : speed_is_mhz (sim_speed (P.actual_tcycle s) (P.timestamp s - st)) = true
    · rw [if_pos hsm] at h; exact h5 h
    · rw [if_neg hsm] at h; exact h6 h
  · exact h7 h
  · exact h8 _ h
  rcases h with ⟨i, _, hi⟩ | ⟨i, _, hi⟩
  · exact h9 i hi.symm
  · exact h10 i hi.symm

/-- The post-loop trace finishes model `i` exactly once (for `i` in
range). -/
lemma run_post_count_modelFinish {σ : Type} (P : Platform σ) (top : firesim_top_t σ)
    (sh : Nat) (st : ℚ) (s : σ) (i : Nat) (h : i < top.fpga_models.length) :
    ((run_post P top sh st s).2.1).count (Event.modelFinish i) = 1 := by
  rw [run_post_trace]
  have hv := verdict_event_cases (firesim_top_t.exit_code top.bridges s)
      (firesim_top_t.simulation_complete top.bridges s) (P.has_timed_out s)
      (P.actual_tcycle s)
  have hm1 : ((List.range top.fpga_models.length).map Event.modelFinish).count
      (Event.modelFinish i) = 1 := count_map_range_one _ modelFinish_inj h
  have hm2 : ((List.range top.bridges.length).map Event.bridgeFinish).count
      (Event.modelFinish i) = 0 := count_map_range_zero _ _ (fun j => by simp) _
  rcases hv with hv | hv | hv <;> rw [hv] <;>
    (by_cases hsm : speed_is_mhz (sim_speed (P.actual_tcycle s) (P.timestamp s - st)) = true
     · rw [if_pos hsm]
       simp [List.count_cons, List.count_append, hm1, hm2]
     · rw [if_neg hsm]
       simp [List.count_cons, List.count_append, hm1, hm2])

/-- The post-loop trace finishes bridge `i` exactly once (for `i` in
range). -/
lemma run_post_count_bridgeFinish {σ : Type} (P : Platform σ) (top : firesim_top_t σ)
    (sh : Nat) (st : ℚ) (s : σ) (i : Nat) (h : i < top.bridges.length) :
    ((run_post P top sh st s).2.1).count (Event.bridgeFinish i) = 1 := by
  rw [run_post_trace]
  have hv := verdict_event_cases (firesim_top_t.exit_code top.bridges s)
      (firesim_top_t.simulation_complete top.bridges s) (P.has_timed_out s)
      (P.actual_tcycle s)
  have hm1 : ((List.range top.bridges.length).map Event.bridgeFinish).count
      (Event.bridgeFinish i) = 1 := count_map_range_one _ bridgeFinish_inj h
  have hm2 : ((List.range top.fpga_models.length).map Event.modelFinish).count
      (Event.bridgeFinish i) = 0 := count_map_range_zero _ _ (fun j => by simp) _
  rcases hv with hv | hv | hv <;> rw [hv] <;>
    (by_cases hsm : speed_is_mhz (sim_speed (P.actual_tcycle s) (P.timestamp s - st)) = true
     · rw [if_pos hsm]
       simp [List.count_cons, List.count_append, hm1, hm2]
     · rw [if_neg hsm]
       simp [List.count_cons, List.count_append, hm1, hm2])

/-- A non-loop event does not occur in a completed outer loop's trace. -/
lemma outer_loop_count_zero {σ : Type} (P : Platform σ) (bs : List (bridge_driver_t σ))
    (tasks : List (host_task σ)) (ofuel ifuel : Nat) (s : σ)
    (r : List (host_task σ) × σ × List Event)
    (hts : ∀ t ∈ tasks, profile_only t)
    (h : outer_loop P bs tasks ofuel ifuel s = some r)
    (e : Event) (he : ¬ loop_event e) : r.2.2.count e = 0 :=
  List.count_eq_zero.mpr fun hm => he (outer_loop_events P bs ofuel tasks ifuel s r hts h e hm)

/-- C2 counterexample: in a concrete completed run, the unique
`init()` call on the bridge driver happens strictly before the 50-cycle
target reset assertion — not after it, as the claim states. -/
theorem C2_init_counterexample :
    ∃ (s : Unit) (tr : List Event) (fatal : Bool),
      firesim_top_t.run unit_platform
          (firesim_top_t.construct Unit [] [unit_model] [unit_bridge 7 true]) 1 1 ()
        = some (s, tr, fatal)
      ∧ tr.count (Event.bridgeInit 0) = 1
      ∧ Event.bridgeInit 0 ∈ tr ∧ Event.targetReset 50 ∈ tr
      ∧ tr.indexOf (Event.bridgeInit 0) < tr.indexOf (Event.targetReset 50)
      ∧ ¬ tr.indexOf (Event.targetReset 50) < tr.indexOf (Event.bridgeInit 0) :=
  ⟨(), [Event.modelInit 0, Event.bridgeInit 0, Event.commencing, Event.targetReset 50,
      Event.newline, Event.failedCode 7 100, Event.speedKHz, Event.fmrLine,
      Event.expectCall 7, Event.modelFinish 0, Event.bridgeFinish 0],
    true, run_unit_concrete, by decide, by decide, by decide, by decide, by decide⟩

/-- C2 (amended): for every completed run of a constructed orchestrator,
each bridge driver's `init()` is called exactly once, before the
50-target-cycle reset assertion (not after it), and the reset is asserted
before the main loop begins: everything preceding the reset is
initialization, zeroing, or the commencing report. -/
theorem C2_init_once_before_reset (σ : Type) (P : Platform σ)
    (args : List (List Char)) (ms : List (FpgaModel σ)) (bs : List (bridge_driver_t σ))
    (ofuel ifuel : Nat) (s0 s : σ) (tr : List Event) (fatal : Bool)
    (h : firesim_top_t.run P (firesim_top_t.construct σ args ms bs) ofuel ifuel s0
        = some (s, tr, fatal)) :
    ∃ pre post,
      tr = pre ++ Event.targetReset 50 :: post
        ∧ (∀ i, i < bs.length →
            pre.count (Event.bridgeInit i) = 1 ∧ post.count (Event.bridgeInit i) = 0)
        ∧ Event.targetReset 50 ∉ pre
        ∧ (∀ e ∈ pre, (∃ i, e = Event.modelInit i) ∨ (∃ i, e = Event.bridgeInit i)
            ∨ e = Event.zeroDram ∨ e = Event.commencing) := by
  obtain ⟨tasks1, s5, trL, hO, htr, hfatal, hs⟩ :=
    run_shape P (firesim_top_t.construct σ args ms bs) ofuel ifuel s0 s tr fatal h
  obtain ⟨hms, hbs⟩ := construct_registries args ms bs
  refine ⟨(List.range (firesim_top_t.construct σ args ms bs).fpga_models.length).map
        Event.modelInit
      ++ (List.range (firesim_top_t.construct σ args ms bs).bridges.length).map
        Event.bridgeInit
      ++ (if (firesim_top_t.construct σ args ms bs).do_zero_out_dram
          then [Event.zeroDram] else [])
      ++ [Event.commencing],
    trL ++ (run_post P (firesim_top_t.construct σ args ms bs)
        (run_pre P (firesim_top_t.construct σ args ms bs) s0).2.1
        (run_pre P (firesim_top_t.construct σ args ms bs) s0).2.2.1 s5).2.1,
    ?_, ?_, ?_, ?_⟩
  · rw [htr, run_pre_trace]
    simp [List.append_assoc]
  · intro i hi
    constructor
    · rw [List.count_append, List.count_append, List.count_append]
      rw [count_map_range_zero _ _ (fun j => by simp) _]
      rw [hbs, count_map_range_one _ bridgeInit_inj hi]
      have hz : (if (firesim_top_t.construct σ args ms bs).do_zero_out_dram
          then [Event.zeroDram] else []).count (Event.bridgeInit i) = 0 := by
        split <;> simp
      rw [hz]
      simp
    · rw [List.count_append]
      rw [outer_loop_count_zero P _ _ ofuel ifuel _ _
        (construct_tasks_profile_only args ms bs) hO _ (by simp [loop_event])]
      rw [run_post_count_zero _ _ _ _ _ _ (by simp) (fun c cyc => by simp)
        (fun cyc => by simp) (fun cyc => by simp) (by simp) (by simp) (by simp)
        (fun c => by simp) (fun j => by simp) (fun j => by simp)]
  · intro hm
    rcases List.mem_append.mp hm with hm1 | hm2
    · rcases List.mem_append.mp hm1 with hm3 | hm4
      · rcases List.mem_append.mp hm3 with hm5 | hm6
        · obtain ⟨j, _, hj⟩ := List.mem_map.mp hm5
          exact Event.noConfusion hj
        · obtain ⟨j, _, hj⟩ := List.mem_map.mp hm6
          exact Event.noConfusion hj
      · revert hm4
        split <;> simp
    · simp at hm2
  · intro e he
    rcases List.mem_append.mp he with he1 | he2
    · rcases List.mem_append.mp he1 with he3 | he4
      · rcases List.mem_append.mp he3 with he5 | he6
        · obtain ⟨j, _, hj⟩ := List.mem_map.mp he5
          exact Or.inl ⟨j, hj.symm⟩
        · obtain ⟨j, _, hj⟩ := List.mem_map.mp he6
          exact Or.inr (Or.inl ⟨j, hj.symm⟩)
      · revert he4
        split
        · intro he4
          rcases List.mem_singleton.mp he4 with h'
          exact Or.inr (Or.inr (Or.inl h'))
        · intro he4
          exact absurd he4 (List.not_mem_nil e)
    · rcases List.mem_singleton.mp he2 with h'
      exact Or.inr (Or.inr (Or.inr h'))

/-- C2 witness: in the concrete one-bridge run, the single `bridgeInit`
sits in the pre-reset section, which holds nothing but initialization and
the commencing report. -/
theorem C2_init_once_before_reset_witness :
    ∃ pre post,
      [Event.modelInit 0, Event.bridgeInit 0, Event.commencing, Event.targetReset 50,
        Event.newline, Event.failedCode 7 100, Event.speedKHz, Event.fmrLine,
        Event.expectCall 7, Event.modelFinish 0, Event.bridgeFinish 0]
        = pre ++ Event.targetReset 50 :: post
        ∧ (∀ i, i < 1 →
            pre.count (Event.bridgeInit i) = 1 ∧ post.count (Event.bridgeInit i) = 0)
        ∧ Event.targetReset 50 ∉ pre
        ∧ (∀ e ∈ pre, (∃ i, e = Event.modelInit i) ∨ (∃ i, e = Event.bridgeInit i)
            ∨ e = Event.zeroDram ∨ e = Event.commencing) :=
  C2_init_once_before_reset Unit unit_platform [] [unit_model] [unit_bridge 7 true]
    1 1 () ()
    [Event.modelInit 0, Event.bridgeInit 0, Event.commencing, Event.targetReset 50,
      Event.newline, Event.failedCode 7 100, Event.speedKHz, Event.fmrLine,
      Event.expectCall 7, Event.modelFinish 0, Event.bridgeFinish 0]
    true run_unit_concrete

/-- An event that is not an init event, the zeroing pass, the commencing
report, or a reset does not occur in the pre-loop trace. -/
lemma run_pre_count_zero {σ : Type} (P : Platform σ) (top : firesim_top_t σ) (s0 : σ)
    (e : Event)
    (h1 : ∀ i, e ≠ Event.modelInit i) (h2 : ∀ i, e ≠ Event.bridgeInit i)
    (h3 : e ≠ Event.zeroDram) (h4 : e ≠ Event.commencing)
    (h5 : ∀ n, e ≠ Event.targetReset n) :
    ((run_pre P top s0).2.2.2).count e = 0 := by
  rw [run_pre_trace, List.count_eq_zero]
  intro hm
  rcases List.mem_append.mp hm with hm1 | hm2
  · rcases List.mem_append.mp hm1 with hm3 | hm4
    · rcases List.mem_append.mp hm3 with hm5 | hm6
      · obtain ⟨j, _, hj⟩ := List.mem_map.mp hm5
        exact h1 j hj.symm
      · obtain ⟨j, _, hj⟩ := List.mem_map.mp hm6
        exact h2 j hj.symm
    · revert hm4
      split
      · intro hm4
        exact h3 (List.mem_singleton.mp hm4)
      · intro hm4
        exact absurd hm4 (List.not_mem_nil e)
  · rcases List.mem_cons.mp hm2 with h' | h'
    · exact h4 h'
    · exact h5 50 (List.mem_singleton.mp h')

/-- The pre-loop trace initializes model `i` exactly once (for `i` in
range). -/
lemma run_pre_count_modelInit {σ : Type} (P : Platform σ) (top : firesim_top_t σ) (s0 : σ)
    (i : Nat) (h : i < top.fpga_models.length) :
    ((run_pre P top s0).2.2.2).count (Event.modelInit i) = 1 := by
  rw [run_pre_trace]
  rw [List.count_append, List.count_append, List.count_append]
  rw [count_map_range_one _ modelInit_inj h]
  rw [count_map_range_zero _ _ (fun j => by simp) _]
  have hz : (if top.do_zero_out_dram then [Event.zeroDram] else []).count
      (Event.modelInit i) = 0 := by split <;> simp
  rw [hz]
  simp

/-- The pre-loop trace initializes bridge `i` exactly once (for `i` in
range). -/
lemma run_pre_count_bridgeInit {σ : Type} (P : Platform σ) (top : firesim_top_t σ) (s0 : σ)
    (i : Nat) (h : i < top.bridges.length) :
    ((run_pre P top s0).2.2.2).count (Event.bridgeInit i) = 1 := by
  rw [run_pre_trace]
  rw [List.count_append, List.count_append, List.count_append]
  rw [count_map_range_one _ bridgeInit_inj h]
  rw [count_map_range_zero _ _ (fun j => by simp) _]
  have hz : (if top.do_zero_out_dram then [Event.zeroDram] else []).count
      (Event.bridgeInit i) = 0 := by split <;> simp
  rw [hz]
  simp

/-- C6: for every registration order, initialization visits every FPGA
model then every bridge driver in registration order, finalization does
the same, each component exactly once per phase, and every completed
inner loop ticks every bridge driver once per inner iteration, in
registration order. -/
theorem C6_registration_order (σ : Type) (P : Platform σ) (args : List (List Char))
    (ms : List (FpgaModel σ)) (bs : List (bridge_driver_t σ))
    (ofuel ifuel : Nat) (s0 s : σ) (tr : List Event) (fatal : Bool)
    (h : firesim_top_t.run P (firesim_top_t.construct σ args ms bs) ofuel ifuel s0
        = some (s, tr, fatal)) :
    (∃ mid, tr = (List.range ms.length).map Event.modelInit
        ++ (List.range bs.length).map Event.bridgeInit
        ++ mid
        ++ (List.range ms.length).map Event.modelFinish
        ++ (List.range bs.length).map Event.bridgeFinish)
    ∧ (∀ i, i < ms.length →
        tr.count (Event.modelInit i) = 1 ∧ tr.count (Event.modelFinish i) = 1)
    ∧ (∀ i, i < bs.length →
        tr.count (Event.bridgeInit i) = 1 ∧ tr.count (Event.bridgeFinish i) = 1)
    ∧ (∀ (g : Nat) (s1 s2 : σ) (trI : List Event),
        inner_loop P bs g s1 = some (s2, trI) →
        ∃ k, trI = (List.replicate k ((List.range bs.length).map Event.bridgeTick)).flatten) := by
  obtain ⟨tasks1, s5, trL, hO, htr, hfatal, hs⟩ :=
    run_shape P (firesim_top_t.construct σ args ms bs) ofuel ifuel s0 s tr fatal h
  obtain ⟨hms, hbs⟩ := construct_registries args ms bs
  have hts := construct_tasks_profile_only args ms bs
  have htrL0 : ∀ e : Event, ¬ loop_event e → trL.count e = 0 := fun e he =>
    outer_loop_count_zero P _ _ ofuel ifuel _ _ hts hO e he
  refine ⟨?_, ?_, ?_, fun g s1 s2 trI hI => inner_loop_trace P bs g s1 s2 trI hI⟩
  · refine ⟨(if (firesim_top_t.construct σ args ms bs).do_zero_out_dram
        then [Event.zeroDram] else [])
      ++ [Event.commencing, Event.targetReset 50] ++ trL
      ++ [Event.newline,
        verdict_event (firesim_top_t.exit_code (firesim_top_t.construct σ args ms bs).bridges s5)
          (firesim_top_t.simulation_complete (firesim_top_t.construct σ args ms bs).bridges s5)
          (P.has_timed_out s5) (P.actual_tcycle s5),
        (if speed_is_mhz (sim_speed (P.actual_tcycle s5)
              (P.timestamp s5 - (run_pre P (firesim_top_t.construct σ args ms bs) s0).2.2.1))
          then Event.speedMHz else Event.speedKHz),
        Event.fmrLine,
        Event.expectCall (firesim_top_t.exit_code (firesim_top_t.construct σ args ms bs).bridges s5)],
      ?_⟩
    rw [htr, run_pre_trace, run_post_trace, hms, hbs]
    simp [List.append_assoc]
  · intro i hi
    rw [htr]
    constructor
    · rw [List.count_append, List.count_append,
        run_pre_count_modelInit P _ s0 i (by rw [hms]; exact hi),
        htrL0 _ (by simp [loop_event]),
        run_post_count_zero _ _ _ _ _ (Event.modelInit i) (by simp)
          (fun c cyc => by simp) (fun cyc => by simp) (fun cyc => by simp) (by simp)
          (by simp) (by simp) (fun c => by simp) (fun j => by simp) (fun j => by simp)]
    · rw [List.count_append, List.count_append,
        run_pre_count_zero P _ s0 (Event.modelFinish i) (fun j => by simp)
          (fun j => by simp) (by simp) (by simp) (fun n => by simp),
        htrL0 _ (by simp [loop_event]),
        run_post_count_modelFinish P _ _ _ s5 i (by rw [hms]; exact hi)]
  · intro i hi
    rw [htr]
    constructor
    · rw [List.count_append, List.count_append,
        run_pre_count_bridgeInit P _ s0 i (by rw [hbs]; exact hi),
        htrL0 _ (by simp [loop_event]),
        run_post_count_zero _ _ _ _ _ (Event.bridgeInit i) (by simp)
          (fun c cyc => by simp) (fun cyc => by simp) (fun cyc => by simp) (by simp)
          (by simp) (by simp) (fun c => by simp) (fun j => by simp) (fun j => by simp)]
    · rw [List.count_append, List.count_append,
        run_pre_count_zero P _ s0 (Event.bridgeFinish i) (fun j => by simp)
          (fun j => by simp) (by simp) (by simp) (fun n => by simp),
        htrL0 _ (by simp [loop_event]),
        run_post_count_bridgeFinish P _ _ _ s5 i (by rw [hbs]; exact hi)]

/-- C6 witness: the concrete counter-world run opens with the model and
bridge init events, closes with the finish events, counts each lifecycle
event once, and its inner loop ran one full tick sweep. -/
theorem C6_registration_order_witness :
    (∃ mid,
      [Event.modelInit 0, Event.bridgeInit 0, Event.commencing, Event.targetReset 50,
        Event.stepAdvance, Event.bridgeTick 0, Event.newline, Event.passed 1,
        Event.speedKHz, Event.fmrLine, Event.expectCall 0, Event.modelFinish 0,
        Event.bridgeFinish 0]
        = (List.range 1).map Event.modelInit ++ (List.range 1).map Event.bridgeInit
          ++ mid ++ (List.range 1).map Event.modelFinish
          ++ (List.range 1).map Event.bridgeFinish)
    ∧ (∀ i, i < 1 →
        [Event.modelInit 0, Event.bridgeInit 0, Event.commencing, Event.targetReset 50,
          Event.stepAdvance, Event.bridgeTick 0, Event.newline, Event.passed 1,
          Event.speedKHz, Event.fmrLine, Event.expectCall 0, Event.modelFinish 0,
          Event.bridgeFinish 0].count (Event.modelInit i) = 1
        ∧ [Event.modelInit 0, Event.bridgeInit 0, Event.commencing, Event.targetReset 50,
          Event.stepAdvance, Event.bridgeTick 0, Event.newline, Event.passed 1,
          Event.speedKHz, Event.fmrLine, Event.expectCall 0, Event.modelFinish 0,
          Event.bridgeFinish 0].count (Event.modelFinish i) = 1)
    ∧ (∀ i, i < 1 →
        [Event.modelInit 0, Event.bridgeInit 0, Event.commencing, Event.targetReset 50,
          Event.stepAdvance, Event.bridgeTick 0, Event.newline, Event.passed 1,
          Event.speedKHz, Event.fmrLine, Event.expectCall 0, Event.modelFinish 0,
          Event.bridgeFinish 0].count (Event.bridgeInit i) = 1
        ∧ [Event.modelInit 0, Event.bridgeInit 0, Event.commencing, Event.targetReset 50,
          Event.stepAdvance, Event.bridgeTick 0, Event.newline, Event.passed 1,
          Event.speedKHz, Event.fmrLine, Event.expectCall 0, Event.modelFinish 0,
          Event.bridgeFinish 0].count (Event.bridgeFinish i) = 1)
    ∧ (∀ (g : Nat) (s1 s2 : Nat) (trI : List Event),
        inner_loop nat_platform [nat_bridge] g s1 = some (s2, trI) →
        ∃ k, trI = (List.replicate k ((List.range 1).map Event.bridgeTick)).flatten) :=
  C6_registration_order Nat nat_platform [] [nat_model] [nat_bridge] 2 2 0 1
    [Event.modelInit 0, Event.bridgeInit 0, Event.commencing, Event.targetReset 50,
      Event.stepAdvance, Event.bridgeTick 0, Event.newline, Event.passed 1,
      Event.speedKHz, Event.fmrLine, Event.expectCall 0, Event.modelFinish 0,
      Event.bridgeFinish 0]
    false run_nat_concrete

/-- C10: when profiling is enabled (`profile_interval ≠ −1`), the
built-in task is registered with an initial interval of 0, so it fires at
the very first scheduler check, profiling every model; every invocation
of its callback returns the constant `profile_interval`; and under the
modelled scheduler it is never removed and fires exactly at the checks
that are multiples of the period `max profile_interval.toNat 1` (which is
`profile_interval` itself for any positive setting). -/
theorem C10_profiling_task_schedule (σ : Type) (ms : List (FpgaModel σ)) (pi : Int)
    (hpi : pi ≠ -1) :
    (profile_task (σ := σ) ms pi).countdown = 0
    ∧ (∀ (bs : List (bridge_driver_t σ)) (args : List (List Char)),
        (firesim_top_t.construct σ args ms bs).profile_interval = pi →
        (firesim_top_t.construct σ args ms bs).tasks = [profile_task ms pi])
    ∧ (∀ s : σ, (run_scheduled_tasks [profile_task ms pi] s).2.2
        = (List.range ms.length).map Event.profileModel)
    ∧ (∀ s : σ, (firesim_top_t.profile_models ms pi s).2.2 = pi)
    ∧ (∀ (n : Nat) (s : σ),
        (sched_iter [profile_task ms pi] s n).1
          = [⟨fun s => firesim_top_t.profile_models ms pi s,
              cd_iter (max pi.toNat 1) 0 n⟩])
    ∧ (∀ n : Nat, cd_iter (max pi.toNat 1) 0 n = 0 ↔ n % max pi.toNat 1 = 0) := by
  refine ⟨rfl, ?_, ?_, fun s => rfl, ?_, ?_⟩
  · intro bs args hp
    rw [construct_tasks]
    rw [construct_profile] at hp
    rw [if_pos (by rw [hp]; exact hpi), hp]
  · intro s
    have := run_sched_profile_step ms pi hpi 0 s
    rw [show profile_task (σ := σ) ms pi
        = ⟨fun s => firesim_top_t.profile_models ms pi s, 0⟩ from rfl, this, if_pos rfl]
    exact profile_go_snd0 ms s
  · intro n s
    rw [show profile_task (σ := σ) ms pi
        = ⟨fun s => firesim_top_t.profile_models ms pi s, 0⟩ from rfl]
    exact sched_iter_profile ms pi hpi n 0 s
  · intro n
    exact cd_zero_iff _ n (le_max_right _ _)

/-- C10 witness: with interval 2 and one model, the first check fires the
profiling pass, the callback returns 2, the task survives two checks, and
the period-2 pattern fires exactly at even checks. -/
theorem C10_profiling_task_schedule_witness :
    (profile_task (σ := Unit) [unit_model] 2).countdown = 0
    ∧ (run_scheduled_tasks [profile_task (σ := Unit) [unit_model] 2] ()).2.2
        = (List.range 1).map Event.profileModel
    ∧ (firesim_top_t.profile_models [unit_model] 2 ()).2.2 = 2
    ∧ (sched_iter [profile_task (σ := Unit) [unit_model] 2] () 2).1
        = [⟨fun s => firesim_top_t.profile_models [unit_model] 2 s,
            cd_iter (max (Int.toNat 2) 1) 0 2⟩]
    ∧ (cd_iter (max (Int.toNat 2) 1) 0 2 = 0 ↔ 2 % max (Int.toNat 2) 1 = 0) :=
  ⟨(C10_profiling_task_schedule Unit [unit_model] 2 (by decide)).1,
   (C10_profiling_task_schedule Unit [unit_model] 2 (by decide)).2.2.1 (),
   (C10_profiling_task_schedule Unit [unit_model] 2 (by decide)).2.2.2.1 (),
   (C10_profiling_task_schedule Unit [unit_model] 2 (by decide)).2.2.2.2.1 2 (),
   (C10_profiling_task_schedule Unit [unit_model] 2 (by decide)).2.2.2.2.2 2⟩
